import Mathlib

/-!
Verification of the poai consensus core against its specification.

The Go sources are shallowly embedded: pure functions become Lean
functions, machine integers become `Nat`/`Int` with explicit `% 2^w`
where overflow matters, nullable pointers become `Option`, and fallible
code returns `Option`/sum-like results.  External collaborators (the
LLM engine, ECDSA, the gossip transport) are modelled as explicit
function parameters.
-/

namespace Poai

/-- 2^64, the modulus of Go's `uint64` arithmetic. -/
def U64 : Nat := 18446744073709551616

/-- 2^63. -/
def I64HALF : Nat := 9223372036854775808

/-- Little-endian 8-byte encoding of a `uint64`
(`binary.LittleEndian.PutUint64`). -/
def u64le (n : Nat) : List Nat :=
  (List.range 8).map fun i => (n >>> (8 * i)) % 256

/-- Little-endian read of the first 8 bytes of a byte list
(`binary.LittleEndian.Uint64`); missing bytes read as 0. -/
def leU64 (bs : List Nat) : Nat :=
  ((bs.take 8).reverse).foldl (fun acc b => acc * 256 + b % 256) 0

/-- Reinterpret a `uint64` value as Go's `int64` (two's complement). -/
def int64OfU64 (u : Nat) : Int :=
  if u % U64 < I64HALF then ((u % U64 : Nat) : Int)
  else ((u % U64 : Nat) : Int) - (U64 : Nat)

/-- Wrap a mathematical integer into the signed 64-bit range, the result
of Go's wrapping `int64` arithmetic. -/
def wrap64 (x : Int) : Int :=
  (x + (I64HALF : Nat)) % (U64 : Nat) - (I64HALF : Nat)

/-- Go's `big.Int.Int64`: the low 64 bits of the absolute value,
reinterpreted as `int64` and negated for negative inputs (with `int64`
wrap on the negation, so `-2^63` maps to itself). -/
def goInt64 (x : Int) : Int :=
  let u := x.natAbs % U64
  let v : Int := if u < I64HALF then (u : Int) else (u : Int) - (U64 : Nat)
  let w : Int := if x < 0 then -v else v
  if w = (I64HALF : Nat) then -((I64HALF : Nat) : Int) else w

/-- 64-bit left rotation. -/
def rotl64 (x n : Nat) : Nat :=
  ((x <<< (n % 64)) ||| (x >>> (64 - n % 64))) % U64

/-- 64-bit bitwise complement (inputs are kept below 2^64). -/
def not64 (x : Nat) : Nat := x ^^^ (U64 - 1)

/-! ### SHA3-256 (FIPS 202), as used by `crypto/sha3.Sum256`

The Keccak-f[1600] permutation on 25 little-endian 64-bit lanes,
with the SHA3 domain padding `0x06 … 0x80` and rate 136 bytes. -/

/-- Bit `t` of the Keccak round-constant LFSR (`rc(t)` of FIPS 202). -/
def keccakRcBit (t : Nat) : Nat :=
  ((List.range (t % 255)).foldl
    (fun r _ =>
      let r2 := r <<< 1
      if r2 ≥ 256 then (r2 ^^^ 0x171) % 256 else r2)
    1) % 2

/-- The `i`-th Keccak round constant. -/
def keccakRC (i : Nat) : Nat :=
  (List.range 7).foldl (fun acc j => acc + keccakRcBit (7 * i + j) <<< (2 ^ j - 1)) 0

/-- One fully unrolled Keccak round chain (θ, ρ, π, χ, ι) per round
constant, threading the 25 lanes (index `x + 5y`) as explicit values so
a kernel evaluation is a linear chain of 64-bit word operations. -/
def keccakRoundsFlat : List Nat → Nat → Nat → Nat → Nat → Nat → Nat → Nat → Nat → Nat → Nat → Nat → Nat → Nat → Nat → Nat → Nat → Nat → Nat → Nat → Nat → Nat → Nat → Nat → Nat → Nat → List Nat
  | [], a0, a1, a2, a3, a4, a5, a6, a7, a8, a9, a10, a11, a12, a13, a14, a15, a16, a17, a18, a19, a20, a21, a22, a23, a24 =>
    [a0, a1, a2, a3, a4, a5, a6, a7, a8, a9, a10, a11, a12, a13, a14, a15, a16, a17, a18, a19, a20, a21, a22, a23, a24]
  | rc :: rcs, a0, a1, a2, a3, a4, a5, a6, a7, a8, a9, a10, a11, a12, a13, a14, a15, a16, a17, a18, a19, a20, a21, a22, a23, a24 =>
    let c0 := a0 ^^^ a5 ^^^ a10 ^^^ a15 ^^^ a20
    let c1 := a1 ^^^ a6 ^^^ a11 ^^^ a16 ^^^ a21
    let c2 := a2 ^^^ a7 ^^^ a12 ^^^ a17 ^^^ a22
    let c3 := a3 ^^^ a8 ^^^ a13 ^^^ a18 ^^^ a23
    let c4 := a4 ^^^ a9 ^^^ a14 ^^^ a19 ^^^ a24
    let d0 := c4 ^^^ rotl64 c1 1
    let d1 := c0 ^^^ rotl64 c2 1
    let d2 := c1 ^^^ rotl64 c3 1
    let d3 := c2 ^^^ rotl64 c4 1
    let d4 := c3 ^^^ rotl64 c0 1
    let t0 := a0 ^^^ d0
    let t1 := a1 ^^^ d1
    let t2 := a2 ^^^ d2
    let t3 := a3 ^^^ d3
    let t4 := a4 ^^^ d4
    let t5 := a5 ^^^ d0
    let t6 := a6 ^^^ d1
    let t7 := a7 ^^^ d2
    let t8 := a8 ^^^ d3
    let t9 := a9 ^^^ d4
    let t10 := a10 ^^^ d0
    let t11 := a11 ^^^ d1
    let t12 := a12 ^^^ d2
    let t13 := a13 ^^^ d3
    let t14 := a14 ^^^ d4
    let t15 := a15 ^^^ d0
    let t16 := a16 ^^^ d1
    let t17 := a17 ^^^ d2
    let t18 := a18 ^^^ d3
    let t19 := a19 ^^^ d4
    let t20 := a20 ^^^ d0
    let t21 := a21 ^^^ d1
    let t22 := a22 ^^^ d2
    let t23 := a23 ^^^ d3
    let t24 := a24 ^^^ d4
    let b0 := rotl64 t0 0
    let b1 := rotl64 t6 44
    let b2 := rotl64 t12 43
    let b3 := rotl64 t18 21
    let b4 := rotl64 t24 14
    let b5 := rotl64 t3 28
    let b6 := rotl64 t9 20
    let b7 := rotl64 t10 3
    let b8 := rotl64 t16 45
    let b9 := rotl64 t22 61
    let b10 := rotl64 t1 1
    let b11 := rotl64 t7 6
    let b12 := rotl64 t13 25
    let b13 := rotl64 t19 8
    let b14 := rotl64 t20 18
    let b15 := rotl64 t4 27
    let b16 := rotl64 t5 36
    let b17 := rotl64 t11 10
    let b18 := rotl64 t17 15
    let b19 := rotl64 t23 56
    let b20 := rotl64 t2 62
    let b21 := rotl64 t8 55
    let b22 := rotl64 t14 39
    let b23 := rotl64 t15 41
    let b24 := rotl64 t21 2
    let e0 := b0 ^^^ (not64 b1 &&& b2)
    let e1 := b1 ^^^ (not64 b2 &&& b3)
    let e2 := b2 ^^^ (not64 b3 &&& b4)
    let e3 := b3 ^^^ (not64 b4 &&& b0)
    let e4 := b4 ^^^ (not64 b0 &&& b1)
    let e5 := b5 ^^^ (not64 b6 &&& b7)
    let e6 := b6 ^^^ (not64 b7 &&& b8)
    let e7 := b7 ^^^ (not64 b8 &&& b9)
    let e8 := b8 ^^^ (not64 b9 &&& b5)
    let e9 := b9 ^^^ (not64 b5 &&& b6)
    let e10 := b10 ^^^ (not64 b11 &&& b12)
    let e11 := b11 ^^^ (not64 b12 &&& b13)
    let e12 := b12 ^^^ (not64 b13 &&& b14)
    let e13 := b13 ^^^ (not64 b14 &&& b10)
    let e14 := b14 ^^^ (not64 b10 &&& b11)
    let e15 := b15 ^^^ (not64 b16 &&& b17)
    let e16 := b16 ^^^ (not64 b17 &&& b18)
    let e17 := b17 ^^^ (not64 b18 &&& b19)
    let e18 := b18 ^^^ (not64 b19 &&& b15)
    let e19 := b19 ^^^ (not64 b15 &&& b16)
    let e20 := b20 ^^^ (not64 b21 &&& b22)
    let e21 := b21 ^^^ (not64 b22 &&& b23)
    let e22 := b22 ^^^ (not64 b23 &&& b24)
    let e23 := b23 ^^^ (not64 b24 &&& b20)
    let e24 := b24 ^^^ (not64 b20 &&& b21)
    keccakRoundsFlat rcs (e0 ^^^ rc) e1 e2 e3 e4 e5 e6 e7 e8 e9 e10 e11 e12 e13 e14 e15 e16 e17 e18 e19 e20 e21 e22 e23 e24

/-- The Keccak-f[1600] permutation: 24 rounds. -/
def keccakF (s : List Nat) : List Nat :=
  keccakRoundsFlat ((List.range 24).map keccakRC)
    (s.getD 0 0) (s.getD 1 0) (s.getD 2 0) (s.getD 3 0) (s.getD 4 0)
    (s.getD 5 0) (s.getD 6 0) (s.getD 7 0) (s.getD 8 0) (s.getD 9 0)
    (s.getD 10 0) (s.getD 11 0) (s.getD 12 0) (s.getD 13 0) (s.getD 14 0)
    (s.getD 15 0) (s.getD 16 0) (s.getD 17 0) (s.getD 18 0) (s.getD 19 0)
    (s.getD 20 0) (s.getD 21 0) (s.getD 22 0) (s.getD 23 0) (s.getD 24 0)

/-- SHA3 padding to a multiple of the 136-byte rate: `0x06`, zeros,
final byte `0x80` (a single `0x86` byte when one byte is free). -/
def sha3Pad (msg : List Nat) : List Nat :=
  let padLen := 136 - msg.length % 136
  msg ++ (if padLen = 1 then [0x86]
          else [0x06] ++ List.replicate (padLen - 2) 0 ++ [0x80])

/-- XOR a 136-byte block into the first 17 lanes of a Keccak state. -/
def keccakAbsorbBlock (s : List Nat) (block : List Nat) : List Nat :=
  (List.range 25).map fun j =>
    s.getD j 0 ^^^ (if j < 17 then leU64 (block.drop (8 * j)) else 0)

/-- Absorb `nb` 136-byte blocks of a padded message. -/
def keccakAbsorbBlocks : Nat → List Nat → List Nat → List Nat
  | 0, s, _ => s
  | nb + 1, s, msg =>
    keccakAbsorbBlocks nb (keccakF (keccakAbsorbBlock s (msg.take 136))) (msg.drop 136)

/-- Absorb a padded message (whose length is a multiple of 136),
136 bytes at a time. -/
def keccakAbsorb (s : List Nat) (msg : List Nat) : List Nat :=
  keccakAbsorbBlocks (msg.length / 136) s msg

/-- SHA3-256 of a byte list (`crypto/sha3.Sum256`): absorb the padded
message into an all-zero state and read the first 32 bytes back. -/
def sha3_256 (msg : List Nat) : List Nat :=
  let s := keccakAbsorb (List.replicate 25 0) (sha3Pad msg)
  ((List.range 4).map fun j => u64le (s.getD j 0)).flatten

/-! ### SHA-256 (FIPS 180-4), as used by `crypto/sha256.Sum256` -/

/-- 32-bit right rotation. -/
def rotr32 (x n : Nat) : Nat :=
  ((x >>> (n % 32)) ||| (x <<< (32 - n % 32))) % 4294967296

/-- The 64 SHA-256 round constants (decimal). -/
def sha256K : List Nat :=
  [1116352408, 1899447441, 3049323471, 3921009573, 961987163, 1508970993,
   2453635748, 2870763221, 3624381080, 310598401, 607225278, 1426881987,
   1925078388, 2162078206, 2614888103, 3248222580, 3835390401, 4022224774,
   264347078, 604807628, 770255983, 1249150122, 1555081692, 1996064986,
   2554220882, 2821834349, 2952996808, 3210313671, 3336571891, 3584528711,
   113926993, 338241895, 666307205, 773529912, 1294757372, 1396182291,
   1695183700, 1986661051, 2177026350, 2456956037, 2730485921, 2820302411,
   3259730800, 3345764771, 3516065817, 3600352804, 4094571909, 275423344,
   430227734, 506948616, 659060556, 883997877, 958139571, 1322822218,
   1537002063, 1747873779, 1955562222, 2024104815, 2227730452, 2361852424,
   2428436474, 2756734187, 3204031479, 3329325298]

/-- Initial SHA-256 hash state (decimal). -/
def sha256H0 : List Nat :=
  [1779033703, 3144134277, 1013904242, 2773480762, 1359893119, 2600822924,
   528734635, 1541459225]

/-- Big-endian read of 4 bytes. -/
def beU32 (bs : List Nat) : Nat :=
  (bs.take 4).foldl (fun acc b => acc * 256 + b % 256) 0

/-- Big-endian 8-byte encoding. -/
def u64be (n : Nat) : List Nat :=
  (List.range 8).map fun i => (n >>> (8 * (7 - i))) % 256

/-- SHA-256 padding: `0x80`, zeros to 56 mod 64, 8-byte big-endian bit length. -/
def sha256Pad (msg : List Nat) : List Nat :=
  let zeros := (64 + 55 - msg.length % 64) % 64
  msg ++ [0x80] ++ List.replicate zeros 0 ++ u64be (msg.length * 8)

/-- Extend the 16 message words of a block to the 64-word schedule. -/
def sha256Schedule (w16 : List Nat) : List Nat :=
  (List.range 48).foldl
    (fun w _ =>
      let t := w.length
      let s0 :=
        rotr32 (w.getD (t - 15) 0) 7 ^^^ rotr32 (w.getD (t - 15) 0) 18 ^^^ (w.getD (t - 15) 0 >>> 3)
      let s1 :=
        rotr32 (w.getD (t - 2) 0) 17 ^^^ rotr32 (w.getD (t - 2) 0) 19 ^^^ (w.getD (t - 2) 0 >>> 10)
      w ++ [(w.getD (t - 16) 0 + s0 + w.getD (t - 7) 0 + s1) % 4294967296])
    w16

/-- The SHA-256 compression function on one 64-byte block. -/
def sha256Compress (h : List Nat) (block : List Nat) : List Nat :=
  let w16 := (List.range 16).map fun i => beU32 (block.drop (4 * i))
  let w := sha256Schedule w16
  let final := (List.range 64).foldl
    (fun st t =>
      match st with
      | [a, b, c, d, e, f, g, hh] =>
        let S1 := rotr32 e 6 ^^^ rotr32 e 11 ^^^ rotr32 e 25
        let ch := (e &&& f) ^^^ ((e ^^^ 4294967295) &&& g)
        let t1 := (hh + S1 + ch + sha256K.getD t 0 + w.getD t 0) % 4294967296
        let S0 := rotr32 a 2 ^^^ rotr32 a 13 ^^^ rotr32 a 22
        let mj := (a &&& b) ^^^ (a &&& c) ^^^ (b &&& c)
        let t2 := (S0 + mj) % 4294967296
        [(t1 + t2) % 4294967296, a, b, c, (d + t1) % 4294967296, e, f, g]
      | other => other)
    h
  (List.range 8).map fun i => (h.getD i 0 + final.getD i 0) % 4294967296

/-- Process `nb` 64-byte blocks of padded input. -/
def sha256BlocksN : Nat → List Nat → List Nat → List Nat
  | 0, h, _ => h
  | nb + 1, h, msg => sha256BlocksN nb (sha256Compress h (msg.take 64)) (msg.drop 64)

/-- Process padded input (whose length is a multiple of 64) block by
block. -/
def sha256Blocks (h : List Nat) (msg : List Nat) : List Nat :=
  sha256BlocksN (msg.length / 64) h msg

/-- Big-endian 4-byte encoding. -/
def u32be (n : Nat) : List Nat :=
  (List.range 4).map fun i => (n >>> (8 * (3 - i))) % 256

/-- SHA-256 of a byte list (`crypto/sha256.Sum256`). -/
def sha256 (msg : List Nat) : List Nat :=
  ((sha256Blocks sha256H0 (sha256Pad msg)).map u32be).flatten


/-! ### Block header (`core/header/header.go`) -/

/-- The canonical block header.  Field-for-field translation of
`header.Header`: `Height`/`Nonce` are `uint64` (here `Nat`, reduced mod
2^64 where the code does 64-bit arithmetic), `ParentHash`/`StateRoot`
are 32-byte arrays (byte lists), `Lhat` is `int64`, `Bits` is a nullable
arbitrary-precision integer (`*big.Int`), and `Timestamp` is an instant
in integer nanoseconds (Go `time.Time` at the resolution `Sub` reports). -/
structure Header where
  height : Nat
  parentHash : List Nat
  lhat : Int
  bits : Option Int
  timestamp : Int
  stateRoot : List Nat
  nonce : Nat
deriving DecidableEq, Repr

/-- `Header.Hash` on a non-nil header: SHA3-256 of the 48-byte buffer
`height (8 LE) ∥ parentHash (32) ∥ nonce (8 LE)`. -/
def headerHash (h : Header) : List Nat :=
  sha3_256 (u64le h.height ++ h.parentHash ++ u64le h.nonce)

/-- `Header.Hash` including the nil-receiver guard, which returns the
zero hash. -/
def hashOfHeader (ho : Option Header) : List Nat :=
  match ho with
  | none => List.replicate 32 0
  | some h => headerHash h

/-! ### Block subsidy (`GetSubsidy`, core block code) -/

/-- `GetSubsidy`: halving every 210000 heights; zero after 64 halvings;
otherwise the initial subsidy 50 shifted right by the halving count. -/
def getSubsidy (height : Nat) : Int :=
  let halvings := height / 210000
  if halvings ≥ 64 then 0
  else ((50 >>> halvings : Nat) : Int)

/-! ### Procedural quiz (`dataset.ProceduralQuiz`)

`ProceduralQuiz` drives Go's `math/rand` generator.  That generator is
standard-library code, external to this repository.
Modelled from the spec: the spec only fixes that the PRG is "a specified
linear-congruential family" seeded as written; we model it as the
classical Lehmer generator `x ↦ 16807·x mod (2^31 − 1)` with Go's seed
normalisation (reduce mod 2^31 − 1, replace 0 by 89482311), and a draw
`Intn n` as the next state reduced mod `n`.  Every property proved below
except the concrete inequality `quiz 42 7 ≠ quiz 42 8` holds for any
deterministic generator in place of these two functions. -/

/-- One step of the modelled linear-congruential generator. -/
def lehmerNext (x : Nat) : Nat := (16807 * x) % 2147483647

/-- Seed normalisation for the modelled generator. -/
def prgSeed (s : Int) : Nat :=
  let r := (s % 2147483647).toNat
  if r = 0 then 89482311 else r

/-- Draw a value in `[0, n)` and the successor state. -/
def prgNext (st : Nat) (n : Nat) : Nat × Nat :=
  let st2 := lehmerNext st
  (st2 % n, st2)

/-- Render one quiz question from its per-question seed: draw the
question type in `{0,1,2,3}` and then the operands, exactly following
the `switch` in `ProceduralQuiz`. -/
def quizQuestion (qseed : Int) : String :=
  let st0 := prgSeed qseed
  let qt := (prgNext st0 4).1
  let st1 := (prgNext st0 4).2
  if qt = 0 then
    let x0 := (prgNext st1 1000).1
    let y0 := (prgNext (prgNext st1 1000).2 1000).1
    "What is " ++ Nat.repr (1 + x0) ++ " + " ++ Nat.repr (1 + y0) ++ "?"
  else if qt = 1 then
    let x0 := (prgNext st1 50).1
    let y0 := (prgNext (prgNext st1 50).2 50).1
    "What is " ++ Nat.repr (1 + x0) ++ " × " ++ Nat.repr (1 + y0) ++ "?"
  else if qt = 2 then
    let s0 := (prgNext st1 10).1
    let d0 := (prgNext (prgNext st1 10).2 5).1
    "Complete the pattern: " ++ Nat.repr (1 + s0) ++ ", " ++
      Nat.repr (1 + s0 + (1 + d0)) ++ ", " ++ Nat.repr (1 + s0 + 2 * (1 + d0)) ++ ", ?"
  else
    let items : List String := ["apple", "banana", "cherry", "date", "elderberry"]
    let idx := (prgNext st1 5).1
    "What fruit comes after " ++ items.getD idx ("") ++ " in alphabetical order?"

/-- The per-question seed: `seed + int64(i*1000) + int64(nonce%10000)`
with wrapping signed 64-bit additions. -/
def questionSeed (seed : Int) (nonce : Nat) (i : Nat) : Int :=
  wrap64 (wrap64 (seed + (i * 1000 : Nat)) + (((nonce % U64) % 10000 : Nat) : Int))

/-- `dataset.ProceduralQuiz`: seed from `int64(height) + int64(nonce)`
(wrapping), draw `numQuestions = 3 + Intn 3`, and render each question
from a freshly seeded generator. -/
def proceduralQuiz (blockHeight nonce : Nat) : List String :=
  let seed := wrap64 (int64OfU64 blockHeight + int64OfU64 nonce)
  let numQuestions := 3 + (prgNext (prgSeed seed) 3).1
  (List.range numQuestions).map fun i => quizQuestion (questionSeed seed nonce i)

/-- The four question templates of `ProceduralQuiz` with their operand
ranges, used to state C3. -/
def QuestionShape (q : String) : Prop :=
  (∃ x y, 1 ≤ x ∧ x ≤ 1000 ∧ 1 ≤ y ∧ y ≤ 1000 ∧
    q = "What is " ++ Nat.repr x ++ " + " ++ Nat.repr y ++ "?") ∨
  (∃ x y, 1 ≤ x ∧ x ≤ 50 ∧ 1 ≤ y ∧ y ≤ 50 ∧
    q = "What is " ++ Nat.repr x ++ " × " ++ Nat.repr y ++ "?") ∨
  (∃ a d, 1 ≤ a ∧ a ≤ 10 ∧ 1 ≤ d ∧ d ≤ 5 ∧
    q = "Complete the pattern: " ++ Nat.repr a ++ ", " ++ Nat.repr (a + d) ++ ", " ++
      Nat.repr (a + 2 * d) ++ ", ?") ∨
  (∃ f, f ∈ (["apple", "banana", "cherry", "date", "elderberry"] : List String) ∧
    q = "What fruit comes after " ++ f ++ " in alphabetical order?")

/-! ### Miner target selection (`miner.WorkLoop`) -/

/-- The target computation at the top of each miner iteration:
`currentTarget := parent.Bits.Int64(); if currentTarget <= 0 {
currentTarget = target }` where `target` is the CLI target. -/
def workLoopTarget (parentBits : Int) (cliTarget : Int) : Int :=
  let currentTarget := goInt64 parentBits
  if currentTarget ≤ 0 then cliTarget else currentTarget

/-! ### Difficulty adjustment (`core.Adjust`, with `core/config` constants) -/

/-- `config.RetargetInterval`. -/
def retargetInterval : Nat := 2016

/-- `config.TargetBlockSpacingSec`. -/
def targetBlockSpacingSec : Int := 600

/-- `config.MaxAdjustmentFactor`. -/
def maxAdjustmentFactor : Int := 4

/-- `config.PruneDepth` (default). -/
def pruneDepth : Nat := 100

/-- `core.Adjust`.  The chain reader is its `HeaderByHeight` view.  The
result is the new target together with an error flag: Go returns both a
usable `*big.Int` and an `error`, and the import pipeline treats a
non-nil error as failure.  Durations are integer nanoseconds
(`time.Duration`); `int64(actual.Seconds())` on the clamped positive
span truncates to whole seconds, i.e. divides by 10^9.  `big.Int.Div`
is Euclidean division, which is `/` on `Int` in Lean; the remaining
divisions act on positive operands, where Go's truncating division
agrees with Euclidean division. -/
def adjust (reader : Nat → Option Header) (tip : Option Header) : Int × Bool :=
  match tip with
  | none => (1, true)
  | some tipH =>
    match tipH.bits with
    | none => (1, true)
    | some tipBits =>
      if tipH.height < retargetInterval then (tipBits, false)
      else
        let firstHeight := tipH.height - retargetInterval + 1
        match reader firstHeight with
        | none => (tipBits, true)
        | some first =>
          let actual0 := tipH.timestamp - first.timestamp
          let expected : Int := (retargetInterval : Int) * 1000000000 * targetBlockSpacingSec
          let minSpan := expected / maxAdjustmentFactor
          let maxSpan := expected * maxAdjustmentFactor
          let actual := if actual0 < minSpan then minSpan
                        else if actual0 > maxSpan then maxSpan else actual0
          let expectedSeconds0 := expected / 1000000000
          let expectedSeconds := if expectedSeconds0 = 0 then 1 else expectedSeconds0
          let newT0 := tipBits * (actual / 1000000000) / expectedSeconds
          let newT1 := if newT0 > -1 then (-1 : Int) else newT0
          let newT2 := if newT1 < -((I64HALF : Nat) : Int) then -((I64HALF : Nat) : Int)
                       else newT1
          (newT2, false)

/-! ### Transactions and the validator replay path
(`core/tx.go`, `validator.VerifyBlock`) -/

/-- `core.Transaction`.  `fromAddr` is the Go field `From` (`from` is
reserved in Lean), `toAddr` the field `To`; `amount` and `gasPrice` are nullable `*big.Int`. -/
structure Tx where
  fromAddr : List Nat
  toAddr : List Nat
  amount : Option Int
  nonce : Nat
  gasLimit : Nat
  gasPrice : Option Int
  signature : List Nat
  hash : List Nat
deriving DecidableEq, Repr

/-- The external `go-ethereum/crypto` primitives consumed by
`Transaction.Verify`: the canonical transaction hash
(`CalculateHash`, Keccak-256 of a canonical serialisation), signature
recovery (`SigToPub`, `none` on an invalid signature) and address
derivation (`PubkeyToAddress`). -/
structure CryptoOracle where
  txHash : Tx → List Nat
  sigToPub : List Nat → List Nat → Option (List Nat)
  pubkeyToAddress : List Nat → List Nat

/-- `Transaction.Verify`: coinbase transactions (empty `From`) are
skipped; otherwise the signature must be present, recoverable, and
recover to the sender address. -/
def txVerify (co : CryptoOracle) (tx : Tx) : Option String :=
  if tx.fromAddr = [] then none
  else if tx.signature = [] then some ("transaction has no signature")
  else
    match co.sigToPub (co.txHash tx) tx.signature with
    | none => some ("invalid signature")
    | some pub =>
      if co.pubkeyToAddress pub = tx.fromAddr then none
      else some ("signature does not match sender address")

/-- `core.Block`: header, transactions, merkle root, wall-clock time
(integer nanoseconds) and the opaque receipts blob. -/
structure Block where
  header : Header
  transactions : List Tx
  merkleRoot : List Nat
  time : Int
  receipts : List Nat
deriving DecidableEq, Repr

/-- The outcomes of `validator.VerifyBlock`, in the order the checks
occur.  `nilBits` marks the point where Go would panic calling
`Bits.Int64()` on a nil `Bits`. -/
inductive VerifyErr where
  | llmLoadFailed
  | txInvalid (i : Nat) (msg : String)
  | emptyPrompt
  | inferFailed
  | invalidLoss
  | nilBits
  | targetNotMet
deriving DecidableEq, Repr

/-- The transaction loop of `VerifyBlock`: index and message of the
first transaction whose `Verify` fails. -/
def firstInvalidTx (co : CryptoOracle) (txs : List Tx) (i : Nat) : Option (Nat × String) :=
  match txs with
  | [] => none
  | tx :: rest =>
    match txVerify co tx with
    | some msg => some (i, msg)
    | none => firstInvalidTx co rest (i + 1)

/-- UTF-8 encoding of one scalar value (Go's `[]byte(string)`). -/
def utf8Char (c : Char) : List Nat :=
  let n := c.toNat
  if n < 128 then [n]
  else if n < 2048 then [192 ||| (n >>> 6), 128 ||| (n &&& 63)]
  else if n < 65536 then
    [224 ||| (n >>> 12), 128 ||| ((n >>> 6) &&& 63), 128 ||| (n &&& 63)]
  else
    [240 ||| (n >>> 18), 128 ||| ((n >>> 12) &&& 63),
     128 ||| ((n >>> 6) &&& 63), 128 ||| (n &&& 63)]

/-- The bytes of a string (Go `[]byte(s)`). -/
def strBytes (s : String) : List Nat := s.data.flatMap utf8Char

/-- The loss derived from an LLM output: signed 64-bit little-endian
read of the first 8 bytes of its SHA-256. -/
def lossOfOutput (out : String) : Int := int64OfU64 (leU64 (sha256 (strBytes out)))

/-- The prompt built from quiz strings with newline separators. -/
def quizPrompt (quizzes : List String) : String :=
  quizzes.foldl (fun acc q => acc ++ q ++ "\n") ""

/-- The inference seed: `int(binary.LittleEndian.Uint64(heightBytes))`
for the little-endian bytes of the height. -/
def llmSeedOfHeight (height : Nat) : Int := int64OfU64 (leU64 (u64le height))

/-- `validator.VerifyBlock` (the nonce-based replay path).  `llm` is
`inference.NewLLM` followed by `Infer`: `none` when loading the model
fails, otherwise a deterministic `prompt → seed → output` map that may
itself fail. -/
def verifyBlock (llm : Option (String → Int → Option String)) (co : CryptoOracle)
    (b : Block) : Option VerifyErr :=
  match llm with
  | none => some .llmLoadFailed
  | some infer =>
    match firstInvalidTx co b.transactions 0 with
    | some im => some (.txInvalid im.1 im.2)
    | none =>
      let quizzes := proceduralQuiz b.header.height b.header.nonce
      let prompt := quizPrompt quizzes
      if prompt = "" then some .emptyPrompt
      else
        match infer prompt (llmSeedOfHeight b.header.height) with
        | none => some .inferFailed
        | some output =>
          let lossInt := lossOfOutput output
          if lossInt ≠ b.header.lhat then some .invalidLoss
          else
            match b.header.bits with
            | none => some .nilBits
            | some bits =>
              if lossInt > goInt64 bits then some .targetNotMet
              else none

/-! ### Block-request serving (`net.handleBlockReq`) -/

/-- The range cap of `handleBlockReq`: `if req.To-req.From > 512 {
req.To = req.From + 512 }` in `uint64` arithmetic. -/
def blockReqCappedTo (frm hi : Nat) : Nat :=
  if (hi % U64 + U64 - frm % U64) % U64 > 512 then (frm % U64 + 512) % U64
  else hi % U64

/-- The response loop of `handleBlockReq`: for each height in the capped
inclusive range, include the main-chain block at that height if present.
(`blockAt` is `Chain.BlockByHeight`.  When the capped `To` is
2^64 − 1 the Go loop counter wraps and the loop does not terminate; the
model iterates the range once.) -/
def serveBlockReq (blockAt : Nat → Option Block) (frm hi : Nat) : List Block :=
  let to2 := blockReqCappedTo frm hi
  (List.range' (frm % U64) (to2 + 1 - frm % U64)).filterMap blockAt

/-! ### Block encoding (`Block.Encode` / `DecodeBlock` via `encoding/json`,
with `Header.MarshalJSON` / `Header.UnmarshalJSON`)

The JSON wire format is modelled structurally: a JSON value is the
abstract tree below, `num` carrying an exact integer (all numbers the
codec emits are integers; `big.Int` marshals as an arbitrary-precision
decimal number).  `[]byte` fields marshal as standard base64 strings,
byte arrays (`[32]byte`) as arrays of numbers, and `time.Time` as an
injective textual rendering of the instant (RFC 3339 in Go), modelled
as the decimal of its nanosecond count. -/

/-- A JSON document. -/
inductive Json where
  | null : Json
  | str : String → Json
  | num : Int → Json
  | arr : List Json → Json
  | obj : List (String × Json) → Json

/-- The character of a decimal digit. -/
def digitChar (d : Nat) : Char := Char.ofNat (48 + d % 10)

/-- Decimal digits, most significant first; `fuel` bounds the recursion
depth (any `fuel ≥ n` gives the exact digits of `n`). -/
def natDecimalAux : Nat → Nat → List Char
  | 0, n => [digitChar n]
  | fuel + 1, n =>
    if n < 10 then [digitChar n]
    else natDecimalAux fuel (n / 10) ++ [digitChar (n % 10)]

/-- Decimal digits of a natural number, most significant first. -/
def natDecimal (n : Nat) : List Char := natDecimalAux n n

/-- Decimal rendering of an integer (`big.Int.String`,
`strconv.FormatInt`). -/
def intDecimalStr (x : Int) : String :=
  String.mk (if x < 0 then '-' :: natDecimal x.natAbs else natDecimal x.natAbs)

/-- Value of a decimal digit character. -/
def digitVal (c : Char) : Option Nat :=
  if 48 ≤ c.toNat ∧ c.toNat ≤ 57 then some (c.toNat - 48) else none

/-- Parse a non-empty all-digit character list. -/
def parseNatChars (cs : List Char) : Option Nat :=
  if cs = [] then none
  else cs.foldlM (fun a c => (digitVal c).map fun d => a * 10 + d) 0

/-- Parse a decimal integer with optional leading minus
(`big.Int.SetString` base 10, `strconv.ParseInt`/`ParseUint` shapes). -/
def parseIntStr (s : String) : Option Int :=
  match s.data with
  | [] => none
  | c :: rest =>
    if c = '-' then (parseNatChars rest).map fun n => -(n : Int)
    else (parseNatChars (c :: rest)).map fun n => (n : Int)

/-- Standard base64 alphabet character for a 6-bit value. -/
def b64Char (n : Nat) : Char :=
  ("ABCDEFGHIJKLMNOPQRSTUVWXYZabcdefghijklmnopqrstuvwxyz0123456789+/").data.getD n 'A'

/-- Standard base64 encoding with padding (`encoding/base64.StdEncoding`). -/
def b64Encode (bs : List Nat) : List Char :=
  match bs with
  | b0 :: b1 :: b2 :: rest =>
    let x := b0 % 256 * 65536 + b1 % 256 * 256 + b2 % 256
    b64Char (x / 262144) :: b64Char (x / 4096 % 64) :: b64Char (x / 64 % 64) ::
      b64Char (x % 64) :: b64Encode rest
  | [b0, b1] =>
    let x := b0 % 256 * 65536 + b1 % 256 * 256
    [b64Char (x / 262144), b64Char (x / 4096 % 64), b64Char (x / 64 % 64), '=']
  | [b0] =>
    let x := b0 % 256 * 65536
    [b64Char (x / 262144), b64Char (x / 4096 % 64), '=', '=']
  | [] => []

/-- 6-bit value of a base64 alphabet character. -/
def b64Val (c : Char) : Option Nat :=
  if 65 ≤ c.toNat ∧ c.toNat ≤ 90 then some (c.toNat - 65)
  else if 97 ≤ c.toNat ∧ c.toNat ≤ 122 then some (c.toNat - 71)
  else if 48 ≤ c.toNat ∧ c.toNat ≤ 57 then some (c.toNat + 4)
  else if c = '+' then some 62
  else if c = '/' then some 63
  else none

/-- Standard base64 decoding with padding. -/
def b64Decode (cs : List Char) : Option (List Nat) :=
  match cs with
  | [] => some []
  | c0 :: c1 :: c2 :: c3 :: rest =>
    if c2 = '=' ∧ c3 = '=' ∧ rest = [] then
      match b64Val c0, b64Val c1 with
      | some v0, some v1 => some [v0 * 4 + v1 / 16]
      | _, _ => none
    else if c3 = '=' ∧ rest = [] then
      match b64Val c0, b64Val c1, b64Val c2 with
      | some v0, some v1, some v2 => some [v0 * 4 + v1 / 16, v1 % 16 * 16 + v2 / 4]
      | _, _, _ => none
    else
      match b64Val c0, b64Val c1, b64Val c2, b64Val c3, b64Decode rest with
      | some v0, some v1, some v2, some v3, some bs =>
        some ([v0 * 4 + v1 / 16, v1 % 16 * 16 + v2 / 4, v2 % 4 * 64 + v3] ++ bs)
      | _, _, _, _, _ => none
  | _ => none

/-- A `[]byte` field as JSON (base64 string). -/
def bytesJson (bs : List Nat) : Json := .str (String.mk (b64Encode bs))

/-- A byte array (`[32]byte`) as JSON (array of numbers). -/
def byteArrJson (bs : List Nat) : Json := .arr (bs.map fun (b : Nat) => .num (b : Int))

/-- A nullable `*big.Int` field as JSON (`null` or a decimal number). -/
def optIntJson (v : Option Int) : Json :=
  match v with
  | none => .null
  | some x => .num x

/-- `Header.MarshalJSON`: the custom `bits` decimal string (nil encodes
as "0") next to the remaining fields under their Go JSON names. -/
def encodeHeader (h : Header) : Json :=
  .obj [("bits", .str (match h.bits with
                       | none => "0"
                       | some v => intDecimalStr v)),
        ("Height", .num h.height),
        ("ParentHash", byteArrJson h.parentHash),
        ("Lhat", .num h.lhat),
        ("Timestamp", .str (intDecimalStr h.timestamp)),
        ("StateRoot", byteArrJson h.stateRoot),
        ("nonce", .num h.nonce)]

/-- A transaction under its Go JSON tags. -/
def encodeTx (tx : Tx) : Json :=
  .obj [("from", bytesJson tx.fromAddr),
        ("to", bytesJson tx.toAddr),
        ("amount", optIntJson tx.amount),
        ("nonce", .num tx.nonce),
        ("gasLimit", .num tx.gasLimit),
        ("gasPrice", optIntJson tx.gasPrice),
        ("signature", bytesJson tx.signature),
        ("hash", bytesJson tx.hash)]

/-- `Block.Encode`: the block under its Go JSON tags. -/
def encodeBlock (b : Block) : Json :=
  .obj [("header", encodeHeader b.header),
        ("transactions", .arr (b.transactions.map encodeTx)),
        ("merkleRoot", bytesJson b.merkleRoot),
        ("time", .str (intDecimalStr b.time)),
        ("receipts", bytesJson b.receipts)]

/-- Look a key up in a JSON object. -/
def jsonField (j : Json) (key : String) : Option Json :=
  match j with
  | .obj fields => (fields.find? fun p => p.1 = key).map Prod.snd
  | _ => none

/-- Decode a JSON value into a `uint64`-typed field. -/
def jsonNat (j : Option Json) : Option Nat :=
  match j with
  | some (.num n) => if 0 ≤ n then some n.toNat else none
  | _ => none

/-- Decode a JSON value into an `int64`-typed field. -/
def jsonInt (j : Option Json) : Option Int :=
  match j with
  | some (.num n) => some n
  | _ => none

/-- Decode a JSON value into a `[]byte` field (base64 string; `null`
leaves the slice empty). -/
def jsonBytes (j : Option Json) : Option (List Nat) :=
  match j with
  | some (.str s) => b64Decode s.data
  | some .null => some []
  | _ => none

/-- Decode a JSON value into a byte-array field (array of numbers). -/
def jsonByteArr (j : Option Json) : Option (List Nat) :=
  match j with
  | some (.arr js) =>
    js.mapM fun e =>
      match e with
      | .num n => if 0 ≤ n ∧ n < 256 then some n.toNat else none
      | _ => none
  | _ => none

/-- Decode a JSON value into a nullable `*big.Int` field. -/
def jsonOptInt (j : Option Json) : Option (Option Int) :=
  match j with
  | some (.num n) => some (some n)
  | some .null => some none
  | _ => none

/-- Decode a JSON value into a textual instant. -/
def jsonTime (j : Option Json) : Option Int :=
  match j with
  | some (.str s) => parseIntStr s
  | _ => none

/-- `Header.UnmarshalJSON`: the `bits` string is parsed in base 10; an
empty string yields 0, and a failed `SetString` leaves the fresh
`big.Int` at 0 — the decoded `Bits` is never nil. -/
def decodeHeader (j : Json) : Option Header := do
  let bitsJ ← jsonField j "bits"
  let bitsStr ← match bitsJ with
                | .str s => some s
                | _ => none
  let bits : Int := if bitsStr = "" then 0 else (parseIntStr bitsStr).getD 0
  let height ← jsonNat (jsonField j "Height")
  let parentHash ← jsonByteArr (jsonField j "ParentHash")
  let lhat ← jsonInt (jsonField j "Lhat")
  let timestamp ← jsonTime (jsonField j "Timestamp")
  let stateRoot ← jsonByteArr (jsonField j "StateRoot")
  let nonce ← jsonNat (jsonField j "nonce")
  some ⟨height, parentHash, lhat, some bits, timestamp, stateRoot, nonce⟩

/-- Decode a transaction. -/
def decodeTx (j : Json) : Option Tx := do
  let fromAddr ← jsonBytes (jsonField j "from")
  let toAddr ← jsonBytes (jsonField j "to")
  let amount ← jsonOptInt (jsonField j "amount")
  let nonce ← jsonNat (jsonField j "nonce")
  let gasLimit ← jsonNat (jsonField j "gasLimit")
  let gasPrice ← jsonOptInt (jsonField j "gasPrice")
  let signature ← jsonBytes (jsonField j "signature")
  let hash ← jsonBytes (jsonField j "hash")
  some ⟨fromAddr, toAddr, amount, nonce, gasLimit, gasPrice, signature, hash⟩

/-- `core.DecodeBlock`. -/
def decodeBlock (j : Json) : Option Block := do
  let headerJ ← jsonField j "header"
  let header ← decodeHeader headerJ
  let txsJ ← jsonField j "transactions"
  let transactions ← match txsJ with
                     | .arr js => js.mapM decodeTx
                     | .null => some []
                     | _ => none
  let merkleRoot ← jsonBytes (jsonField j "merkleRoot")
  let time ← jsonTime (jsonField j "time")
  let receipts ← jsonBytes (jsonField j "receipts")
  some ⟨header, transactions, merkleRoot, time, receipts⟩

/-- Byte-valued lists: the contents of Go `[]byte` / `[32]byte` values. -/
def IsBytes (bs : List Nat) : Prop := ∀ b ∈ bs, b < 256

/-- The typing facts Go grants every in-memory block: all byte fields
hold bytes. -/
def BlockBytes (b : Block) : Prop :=
  IsBytes b.header.parentHash ∧ IsBytes b.header.stateRoot ∧
  IsBytes b.merkleRoot ∧ IsBytes b.receipts ∧
  ∀ tx ∈ b.transactions,
    IsBytes tx.fromAddr ∧ IsBytes tx.toAddr ∧ IsBytes tx.signature ∧ IsBytes tx.hash

/-! ### The chain manager (`core.Chain`, `chain.go`)

The import pipeline reads only the header of a block (its body never
influences `ImportBlock`), so chain-managed blocks are modelled by their
headers.  Maps become association lists with unique keys, preserving
insertion order (Go map iteration order is unspecified; `checkReorg`
iterates in this fixed order).  Locking, logging and subscriber
notification carry no state observed by the claims and are dropped; the
`RequestBlockByHash` callback is modelled by a flag plus the list of
parent hashes the import asked for. -/

/-- Association-list lookup. -/
def alookup {α β : Type} [DecidableEq α] (m : List (α × β)) (k : α) : Option β :=
  (m.find? fun p => p.1 = k).map Prod.snd

/-- Association-list deletion (Go `delete`). -/
def aerase {α β : Type} [DecidableEq α] (m : List (α × β)) (k : α) : List (α × β) :=
  m.filter fun p => decide (p.1 ≠ k)

/-- Association-list insert-or-replace (Go map assignment).  Go map
iteration order is unspecified; this model fixes one order (the updated
entry first), which only pins down the arbitrary order in which
`checkReorg` walks the branches. -/
def ainsert {α β : Type} [DecidableEq α] (m : List (α × β)) (k : α) (v : β) :
    List (α × β) :=
  (k, v) :: aerase m k

/-- The in-memory chain state: `blocks` (by height), `blockHashIndex`
(by hash), `head`, the orphan pool, the side branches, the persisted
store (`block:<height>` keys plus `chain:tip`), and whether the P2P
`RequestBlockByHash` callback is installed. -/
structure ChainState where
  blocks : List (Nat × Header)
  blockHashIndex : List (List Nat × Header)
  head : Nat
  orphanPool : List (List Nat × List Header)
  sideBranches : List (List Nat × List Header)
  store : List (Nat × Header)
  storeTip : Option Nat
  hasRequestCallback : Bool
deriving DecidableEq, Repr

/-- The error kinds `importBlockInternal` reports (`ok` is a nil error). -/
inductive ImportOutcome where
  | ok
  | duplicate
  | orphanQueued
  | sideBranched
  | hashMismatch
  | adjustFailed
deriving DecidableEq, Repr

/-- The result of an import: the new state, the outcome, and the parent
hashes requested from peers through the sync callback. -/
structure ImportResult where
  state : ChainState
  outcome : ImportOutcome
  requests : List (List Nat)
deriving DecidableEq, Repr

/-- `BadgerStore.PutBlock`: store the block under its height and move
`chain:tip` to that height. -/
def storePutBlock (st : ChainState) (h : Nat) (b : Header) : ChainState :=
  { st with store := ainsert st.store h b, storeTip := some h }

/-- `BadgerStore.PruneBlocks`: delete stored blocks below
`tip − keepN + 1` (nothing when `tip < keepN`). -/
def storePrune (st : ChainState) (keepN tip : Nat) : ChainState :=
  let minKeep := if tip ≥ keepN then tip - keepN + 1 else 0
  { st with store := st.store.filter fun p => decide (¬ p.1 < minKeep) }

/-- `Chain.addToOrphanPool`: append to `orphanPool[parentHash]` and,
when the callback is installed, request the parent from peers
(asynchronously in Go; recorded here as an emitted request). -/
def addToOrphanPool (st : ChainState) (b : Header) : ChainState × List (List Nat) :=
  ({ st with orphanPool :=
       (ainsert st.orphanPool b.parentHash
         ((alookup st.orphanPool b.parentHash).getD [] ++ [b])) },
   if st.hasRequestCallback then [b.parentHash] else [])

/-- `Chain.addToSideBranch`: append to `sideBranches[parentHash]`. -/
def addToSideBranch (st : ChainState) (b : Header) : ChainState :=
  { st with sideBranches :=
      (ainsert st.sideBranches b.parentHash
        ((alookup st.sideBranches b.parentHash).getD [] ++ [b])) }

/-- One iteration of the apply loop of `reorgToBranch`: write the block
into `blocks`, advance `head`, persist. -/
def reorgApply (s : ChainState) (blk : Header) : ChainState :=
  storePutBlock
    { s with blocks := ainsert s.blocks blk.height blk, head := blk.height }
    blk.height blk

/-- `Chain.reorgToBranch`: roll the head back to `branch[0].Height − 1`
(`uint64` arithmetic), then apply each branch block in order, updating
`blocks`, `head` and the store.  (`blockHashIndex` is not touched, as in
the Go code.) -/
def reorgToBranch (st : ChainState) (_ph : List Nat) (branch : List Header) : ChainState :=
  let forkHeight := ((branch.headD ⟨0, [], 0, none, 0, [], 0⟩).height + U64 - 1) % U64
  branch.foldl reorgApply { st with head := forkHeight }

/-- One iteration of the `checkReorg` loop: a non-empty branch whose tip
height exceeds the current head is applied by `reorgToBranch` and its
entry deleted. -/
def checkReorgStep (s : ChainState) (entry : List Nat × List Header) : ChainState :=
  match entry.2.getLast? with
  | none => s
  | some branchTip =>
    if branchTip.height > s.head then
      { reorgToBranch s entry.1 entry.2 with
          sideBranches := aerase s.sideBranches entry.1 }
    else s

/-- `Chain.checkReorg`: walk the side branches; every branch whose tip
height exceeds the current head is applied by `reorgToBranch` and its
entry deleted. -/
def checkReorg (st : ChainState) : ChainState :=
  st.sideBranches.foldl checkReorgStep st

/-- `Chain.getBlockByHash` (the `blockHashIndex` lookup). -/
def getBlockByHash (st : ChainState) (h : List Nat) : Option Header :=
  alookup st.blockHashIndex h

/-- `Chain.HeaderByHeight`: the in-memory block at that height, else the
stored one; a nil or zero `Bits` is patched to 1000.  (The Go method
also caches these patches back into memory; the import paths exercised
by the claims never observe that write-back.) -/
def headerByHeight (st : ChainState) (height : Nat) : Option Header :=
  match alookup st.blocks height with
  | some blk =>
    if blk.bits = none ∨ blk.bits = some 0 then some { blk with bits := some 1000 }
    else some blk
  | none =>
    match alookup st.store height with
    | some blk =>
      if blk.bits = none ∨ blk.bits = some 0 then some { blk with bits := some 1000 }
      else some blk
    | none => none

/-- The common body of `importBlockInternal`.  `promote` is what runs
after the critical section is released (`tryImportOrphans` for a
top-level import, a no-op for an import issued while the global
single-flight orphan guard is already held).  A missing head block in
the duplicate check would be a nil-pointer dereference in Go; the model
reads it through the nil-header guard of `Header.Hash` (the theorems
below assume the head block present). -/
def importWith (promote : ChainState → List Nat → ChainState × List (List Nat))
    (st : ChainState) (b : Header) : ImportResult :=
  match alookup st.blocks b.height with
  | some existing =>
    if headerHash existing ≠ headerHash b ∧
        b.parentHash ≠ hashOfHeader (alookup st.blocks st.head) then
      ⟨checkReorg (addToSideBranch st b), .ok, []⟩
    else ⟨st, .duplicate, []⟩
  | none =>
    match st.blocks.find? fun p => headerHash p.2 = b.parentHash with
    | none =>
      let r := addToOrphanPool st b
      ⟨r.1, .orphanQueued, r.2⟩
    | some pparent =>
      if pparent.2.height ≠ (b.height + U64 - 1) % U64 then
        ⟨addToSideBranch st b, .sideBranched, []⟩
      else if b.parentHash ≠ headerHash pparent.2 then
        ⟨addToSideBranch st b, .sideBranched, []⟩
      else if headerHash b ≠ headerHash b then
        ⟨st, .hashMismatch, []⟩
      else
        let adj : Option (Option Int) :=
          if b.height % retargetInterval = 0 ∧ b.height > 0 then
            let r := adjust (fun hh => headerByHeight st hh) (some b)
            if r.2 then none else some (some r.1)
          else some pparent.2.bits
        match adj with
        | none => ⟨st, .adjustFailed, []⟩
        | some newBits =>
          let b2 : Header := { b with bits := newBits }
          let st1 := { st with
            blocks := ainsert st.blocks b2.height b2,
            blockHashIndex := ainsert st.blockHashIndex (headerHash b2) b2,
            head := b2.height }
          let st2 := storePutBlock st1 b2.height b2
          let st3 := if pruneDepth > 0 then storePrune st2 pruneDepth st2.head else st2
          let st4 := checkReorg st3
          let r := promote st4 (headerHash b2)
          ⟨r.1, .ok, r.2⟩

/-- An import issued while the orphan single-flight guard is held: its
own `tryImportOrphans` call is skipped by the guard. -/
def importNoPromote (st : ChainState) (b : Header) : ImportResult :=
  importWith (fun s _ => (s, [])) st b

/-- `Chain.tryImportOrphans`: pop `orphanPool[parentHash]`, classify
every popped orphan against the current indexes (under a read lock,
before any re-import), then re-import the well-placed ones and route the
rest to side branches. -/
def tryImportOrphans (st : ChainState) (parentHash : List Nat) :
    ChainState × List (List Nat) :=
  match alookup st.orphanPool parentHash with
  | none => (st, [])
  | some orphans =>
    let st0 := { st with orphanPool := aerase st.orphanPool parentHash }
    let toImport := orphans.filter fun o =>
      match getBlockByHash st0 o.parentHash with
      | some parent => decide (parent.height = (o.height + U64 - 1) % U64)
      | none => false
    let toSide := orphans.filter fun o =>
      match getBlockByHash st0 o.parentHash with
      | some parent => decide (parent.height ≠ (o.height + U64 - 1) % U64)
      | none => false
    let r := toImport.foldl
      (fun acc o =>
        let ri := importNoPromote acc.1 o
        (ri.state, acc.2 ++ ri.requests))
      (st0, ([] : List (List Nat)))
    (toSide.foldl (fun s o => addToSideBranch s o) r.1, r.2)

/-- `Chain.ImportBlock`: the full import, with orphan promotion after
the critical section. -/
def importBlock (st : ChainState) (b : Header) : ImportResult :=
  importWith tryImportOrphans st b

/-- `Chain.createGenesis`: height 0, zero parent, zero loss, the
configured initial target, empty body (`ts` stands for the wall-clock
timestamp), inserted into both indexes and persisted. -/
def createGenesis (genesisTarget : Int) (ts : Int) (hasCallback : Bool) : ChainState :=
  let g : Header := ⟨0, List.replicate 32 0, 0, some genesisTarget, ts, List.replicate 32 0, 0⟩
  storePutBlock
    { blocks := [(0, g)], blockHashIndex := [(headerHash g, g)], head := 0,
      orphanPool := [], sideBranches := [], store := [], storeTip := none,
      hasRequestCallback := hasCallback } 0 g

/-! ### Concrete instances used by witnesses and counterexamples -/

/-- 32 zero bytes. -/
def zeros32 : List Nat := List.replicate 32 0

/-- The genesis header of a chain started with target −1000 at time 0. -/
def g0 : Header := ⟨0, zeros32, 0, some (-1000), 0, zeros32, 0⟩

/-- A child of genesis at height 1. -/
def a1 : Header := ⟨1, headerHash g0, 0, some (-1000), 0, zeros32, 11⟩

/-- A block at height 2 whose parent is genesis (a gap of one height). -/
def x2 : Header := ⟨2, headerHash g0, 0, some (-1000), 0, zeros32, 77⟩

/-- A child of `x2` at height 3. -/
def c5Child : Header := ⟨3, headerHash x2, 0, some (-1000), 0, zeros32, 33⟩

/-- The chain state after: genesis; import `x2` (side-branched, parent at
height 0 ≠ 1); import `a1` (accepted, after which `checkReorg` promotes
the branch `[x2]`, so `x2` enters `blocks` without entering
`blockHashIndex`). -/
def c5State : ChainState :=
  (importBlock (importBlock (createGenesis (-1000) 0 false) x2).state a1).state


/-- The state after importing `x2` into a fresh genesis chain, written
out as a literal (checked against the pipeline in `c5_mid_eq`). -/
def c5MidLit : ChainState := { blocks := [(0, { height := 0, parentHash := [0, 0, 0, 0, 0, 0, 0, 0, 0, 0, 0, 0, 0, 0, 0, 0, 0, 0, 0, 0, 0, 0, 0, 0, 0, 0, 0, 0, 0, 0, 0, 0], lhat := 0, bits := some (-1000), timestamp := 0, stateRoot := [0, 0, 0, 0, 0, 0, 0, 0, 0, 0, 0, 0, 0, 0, 0, 0, 0, 0, 0, 0, 0, 0, 0, 0, 0, 0, 0, 0, 0, 0, 0, 0], nonce := 0 })], blockHashIndex := [([133, 198, 93, 19, 200, 113, 155, 159, 136, 63, 230, 29, 21, 173, 160, 40, 169, 25, 61, 85, 203, 79, 43, 182, 5, 236, 141, 124, 46, 193, 223, 255], { height := 0, parentHash := [0, 0, 0, 0, 0, 0, 0, 0, 0, 0, 0, 0, 0, 0, 0, 0, 0, 0, 0, 0, 0, 0, 0, 0, 0, 0, 0, 0, 0, 0, 0, 0], lhat := 0, bits := some (-1000), timestamp := 0, stateRoot := [0, 0, 0, 0, 0, 0, 0, 0, 0, 0, 0, 0, 0, 0, 0, 0, 0, 0, 0, 0, 0, 0, 0, 0, 0, 0, 0, 0, 0, 0, 0, 0], nonce := 0 })], head := 0, orphanPool := [], sideBranches := [([133, 198, 93, 19, 200, 113, 155, 159, 136, 63, 230, 29, 21, 173, 160, 40, 169, 25, 61, 85, 203, 79, 43, 182, 5, 236, 141, 124, 46, 193, 223, 255], [{ height := 2, parentHash := [133, 198, 93, 19, 200, 113, 155, 159, 136, 63, 230, 29, 21, 173, 160, 40, 169, 25, 61, 85, 203, 79, 43, 182, 5, 236, 141, 124, 46, 193, 223, 255], lhat := 0, bits := some (-1000), timestamp := 0, stateRoot := [0, 0, 0, 0, 0, 0, 0, 0, 0, 0, 0, 0, 0, 0, 0, 0, 0, 0, 0, 0, 0, 0, 0, 0, 0, 0, 0, 0, 0, 0, 0, 0], nonce := 77 }])], store := [(0, { height := 0, parentHash := [0, 0, 0, 0, 0, 0, 0, 0, 0, 0, 0, 0, 0, 0, 0, 0, 0, 0, 0, 0, 0, 0, 0, 0, 0, 0, 0, 0, 0, 0, 0, 0], lhat := 0, bits := some (-1000), timestamp := 0, stateRoot := [0, 0, 0, 0, 0, 0, 0, 0, 0, 0, 0, 0, 0, 0, 0, 0, 0, 0, 0, 0, 0, 0, 0, 0, 0, 0, 0, 0, 0, 0, 0, 0], nonce := 0 })], storeTip := some 0, hasRequestCallback := false }

/-- `c5State` written out as a literal (checked in `c5_state_eq`). -/
def c5StateLit : ChainState := { blocks := [(2, { height := 2, parentHash := [133, 198, 93, 19, 200, 113, 155, 159, 136, 63, 230, 29, 21, 173, 160, 40, 169, 25, 61, 85, 203, 79, 43, 182, 5, 236, 141, 124, 46, 193, 223, 255], lhat := 0, bits := some (-1000), timestamp := 0, stateRoot := [0, 0, 0, 0, 0, 0, 0, 0, 0, 0, 0, 0, 0, 0, 0, 0, 0, 0, 0, 0, 0, 0, 0, 0, 0, 0, 0, 0, 0, 0, 0, 0], nonce := 77 }), (1, { height := 1, parentHash := [133, 198, 93, 19, 200, 113, 155, 159, 136, 63, 230, 29, 21, 173, 160, 40, 169, 25, 61, 85, 203, 79, 43, 182, 5, 236, 141, 124, 46, 193, 223, 255], lhat := 0, bits := some (-1000), timestamp := 0, stateRoot := [0, 0, 0, 0, 0, 0, 0, 0, 0, 0, 0, 0, 0, 0, 0, 0, 0, 0, 0, 0, 0, 0, 0, 0, 0, 0, 0, 0, 0, 0, 0, 0], nonce := 11 }), (0, { height := 0, parentHash := [0, 0, 0, 0, 0, 0, 0, 0, 0, 0, 0, 0, 0, 0, 0, 0, 0, 0, 0, 0, 0, 0, 0, 0, 0, 0, 0, 0, 0, 0, 0, 0], lhat := 0, bits := some (-1000), timestamp := 0, stateRoot := [0, 0, 0, 0, 0, 0, 0, 0, 0, 0, 0, 0, 0, 0, 0, 0, 0, 0, 0, 0, 0, 0, 0, 0, 0, 0, 0, 0, 0, 0, 0, 0], nonce := 0 })], blockHashIndex := [([253, 124, 87, 74, 13, 13, 163, 122, 244, 68, 135, 36, 220, 223, 112, 114, 217, 200, 98, 255, 7, 2, 109, 57, 133, 158, 60, 237, 8, 12, 163, 183], { height := 1, parentHash := [133, 198, 93, 19, 200, 113, 155, 159, 136, 63, 230, 29, 21, 173, 160, 40, 169, 25, 61, 85, 203, 79, 43, 182, 5, 236, 141, 124, 46, 193, 223, 255], lhat := 0, bits := some (-1000), timestamp := 0, stateRoot := [0, 0, 0, 0, 0, 0, 0, 0, 0, 0, 0, 0, 0, 0, 0, 0, 0, 0, 0, 0, 0, 0, 0, 0, 0, 0, 0, 0, 0, 0, 0, 0], nonce := 11 }), ([133, 198, 93, 19, 200, 113, 155, 159, 136, 63, 230, 29, 21, 173, 160, 40, 169, 25, 61, 85, 203, 79, 43, 182, 5, 236, 141, 124, 46, 193, 223, 255], { height := 0, parentHash := [0, 0, 0, 0, 0, 0, 0, 0, 0, 0, 0, 0, 0, 0, 0, 0, 0, 0, 0, 0, 0, 0, 0, 0, 0, 0, 0, 0, 0, 0, 0, 0], lhat := 0, bits := some (-1000), timestamp := 0, stateRoot := [0, 0, 0, 0, 0, 0, 0, 0, 0, 0, 0, 0, 0, 0, 0, 0, 0, 0, 0, 0, 0, 0, 0, 0, 0, 0, 0, 0, 0, 0, 0, 0], nonce := 0 })], head := 2, orphanPool := [], sideBranches := [], store := [(2, { height := 2, parentHash := [133, 198, 93, 19, 200, 113, 155, 159, 136, 63, 230, 29, 21, 173, 160, 40, 169, 25, 61, 85, 203, 79, 43, 182, 5, 236, 141, 124, 46, 193, 223, 255], lhat := 0, bits := some (-1000), timestamp := 0, stateRoot := [0, 0, 0, 0, 0, 0, 0, 0, 0, 0, 0, 0, 0, 0, 0, 0, 0, 0, 0, 0, 0, 0, 0, 0, 0, 0, 0, 0, 0, 0, 0, 0], nonce := 77 }), (1, { height := 1, parentHash := [133, 198, 93, 19, 200, 113, 155, 159, 136, 63, 230, 29, 21, 173, 160, 40, 169, 25, 61, 85, 203, 79, 43, 182, 5, 236, 141, 124, 46, 193, 223, 255], lhat := 0, bits := some (-1000), timestamp := 0, stateRoot := [0, 0, 0, 0, 0, 0, 0, 0, 0, 0, 0, 0, 0, 0, 0, 0, 0, 0, 0, 0, 0, 0, 0, 0, 0, 0, 0, 0, 0, 0, 0, 0], nonce := 11 }), (0, { height := 0, parentHash := [0, 0, 0, 0, 0, 0, 0, 0, 0, 0, 0, 0, 0, 0, 0, 0, 0, 0, 0, 0, 0, 0, 0, 0, 0, 0, 0, 0, 0, 0, 0, 0], lhat := 0, bits := some (-1000), timestamp := 0, stateRoot := [0, 0, 0, 0, 0, 0, 0, 0, 0, 0, 0, 0, 0, 0, 0, 0, 0, 0, 0, 0, 0, 0, 0, 0, 0, 0, 0, 0, 0, 0, 0, 0], nonce := 0 })], storeTip := some 2, hasRequestCallback := false }

/-- The result of importing `c5Child` into `c5State`, written out as a
literal (checked in `c5_result_eq`). -/
def c5ResultLit : ImportResult := { state := { blocks := [(3, { height := 3, parentHash := [244, 101, 234, 66, 34, 3, 104, 121, 83, 21, 244, 135, 143, 245, 160, 20, 20, 67, 87, 119, 178, 169, 186, 36, 180, 137, 26, 74, 90, 225, 83, 72], lhat := 0, bits := some (-1000), timestamp := 0, stateRoot := [0, 0, 0, 0, 0, 0, 0, 0, 0, 0, 0, 0, 0, 0, 0, 0, 0, 0, 0, 0, 0, 0, 0, 0, 0, 0, 0, 0, 0, 0, 0, 0], nonce := 33 }), (2, { height := 2, parentHash := [133, 198, 93, 19, 200, 113, 155, 159, 136, 63, 230, 29, 21, 173, 160, 40, 169, 25, 61, 85, 203, 79, 43, 182, 5, 236, 141, 124, 46, 193, 223, 255], lhat := 0, bits := some (-1000), timestamp := 0, stateRoot := [0, 0, 0, 0, 0, 0, 0, 0, 0, 0, 0, 0, 0, 0, 0, 0, 0, 0, 0, 0, 0, 0, 0, 0, 0, 0, 0, 0, 0, 0, 0, 0], nonce := 77 }), (1, { height := 1, parentHash := [133, 198, 93, 19, 200, 113, 155, 159, 136, 63, 230, 29, 21, 173, 160, 40, 169, 25, 61, 85, 203, 79, 43, 182, 5, 236, 141, 124, 46, 193, 223, 255], lhat := 0, bits := some (-1000), timestamp := 0, stateRoot := [0, 0, 0, 0, 0, 0, 0, 0, 0, 0, 0, 0, 0, 0, 0, 0, 0, 0, 0, 0, 0, 0, 0, 0, 0, 0, 0, 0, 0, 0, 0, 0], nonce := 11 }), (0, { height := 0, parentHash := [0, 0, 0, 0, 0, 0, 0, 0, 0, 0, 0, 0, 0, 0, 0, 0, 0, 0, 0, 0, 0, 0, 0, 0, 0, 0, 0, 0, 0, 0, 0, 0], lhat := 0, bits := some (-1000), timestamp := 0, stateRoot := [0, 0, 0, 0, 0, 0, 0, 0, 0, 0, 0, 0, 0, 0, 0, 0, 0, 0, 0, 0, 0, 0, 0, 0, 0, 0, 0, 0, 0, 0, 0, 0], nonce := 0 })], blockHashIndex := [([106, 177, 195, 111, 8, 85, 27, 206, 201, 113, 25, 209, 200, 53, 142, 1, 116, 202, 119, 99, 110, 19, 120, 111, 67, 7, 151, 202, 225, 193, 139, 165], { height := 3, parentHash := [244, 101, 234, 66, 34, 3, 104, 121, 83, 21, 244, 135, 143, 245, 160, 20, 20, 67, 87, 119, 178, 169, 186, 36, 180, 137, 26, 74, 90, 225, 83, 72], lhat := 0, bits := some (-1000), timestamp := 0, stateRoot := [0, 0, 0, 0, 0, 0, 0, 0, 0, 0, 0, 0, 0, 0, 0, 0, 0, 0, 0, 0, 0, 0, 0, 0, 0, 0, 0, 0, 0, 0, 0, 0], nonce := 33 }), ([253, 124, 87, 74, 13, 13, 163, 122, 244, 68, 135, 36, 220, 223, 112, 114, 217, 200, 98, 255, 7, 2, 109, 57, 133, 158, 60, 237, 8, 12, 163, 183], { height := 1, parentHash := [133, 198, 93, 19, 200, 113, 155, 159, 136, 63, 230, 29, 21, 173, 160, 40, 169, 25, 61, 85, 203, 79, 43, 182, 5, 236, 141, 124, 46, 193, 223, 255], lhat := 0, bits := some (-1000), timestamp := 0, stateRoot := [0, 0, 0, 0, 0, 0, 0, 0, 0, 0, 0, 0, 0, 0, 0, 0, 0, 0, 0, 0, 0, 0, 0, 0, 0, 0, 0, 0, 0, 0, 0, 0], nonce := 11 }), ([133, 198, 93, 19, 200, 113, 155, 159, 136, 63, 230, 29, 21, 173, 160, 40, 169, 25, 61, 85, 203, 79, 43, 182, 5, 236, 141, 124, 46, 193, 223, 255], { height := 0, parentHash := [0, 0, 0, 0, 0, 0, 0, 0, 0, 0, 0, 0, 0, 0, 0, 0, 0, 0, 0, 0, 0, 0, 0, 0, 0, 0, 0, 0, 0, 0, 0, 0], lhat := 0, bits := some (-1000), timestamp := 0, stateRoot := [0, 0, 0, 0, 0, 0, 0, 0, 0, 0, 0, 0, 0, 0, 0, 0, 0, 0, 0, 0, 0, 0, 0, 0, 0, 0, 0, 0, 0, 0, 0, 0], nonce := 0 })], head := 3, orphanPool := [], sideBranches := [], store := [(3, { height := 3, parentHash := [244, 101, 234, 66, 34, 3, 104, 121, 83, 21, 244, 135, 143, 245, 160, 20, 20, 67, 87, 119, 178, 169, 186, 36, 180, 137, 26, 74, 90, 225, 83, 72], lhat := 0, bits := some (-1000), timestamp := 0, stateRoot := [0, 0, 0, 0, 0, 0, 0, 0, 0, 0, 0, 0, 0, 0, 0, 0, 0, 0, 0, 0, 0, 0, 0, 0, 0, 0, 0, 0, 0, 0, 0, 0], nonce := 33 }), (2, { height := 2, parentHash := [133, 198, 93, 19, 200, 113, 155, 159, 136, 63, 230, 29, 21, 173, 160, 40, 169, 25, 61, 85, 203, 79, 43, 182, 5, 236, 141, 124, 46, 193, 223, 255], lhat := 0, bits := some (-1000), timestamp := 0, stateRoot := [0, 0, 0, 0, 0, 0, 0, 0, 0, 0, 0, 0, 0, 0, 0, 0, 0, 0, 0, 0, 0, 0, 0, 0, 0, 0, 0, 0, 0, 0, 0, 0], nonce := 77 }), (1, { height := 1, parentHash := [133, 198, 93, 19, 200, 113, 155, 159, 136, 63, 230, 29, 21, 173, 160, 40, 169, 25, 61, 85, 203, 79, 43, 182, 5, 236, 141, 124, 46, 193, 223, 255], lhat := 0, bits := some (-1000), timestamp := 0, stateRoot := [0, 0, 0, 0, 0, 0, 0, 0, 0, 0, 0, 0, 0, 0, 0, 0, 0, 0, 0, 0, 0, 0, 0, 0, 0, 0, 0, 0, 0, 0, 0, 0], nonce := 11 }), (0, { height := 0, parentHash := [0, 0, 0, 0, 0, 0, 0, 0, 0, 0, 0, 0, 0, 0, 0, 0, 0, 0, 0, 0, 0, 0, 0, 0, 0, 0, 0, 0, 0, 0, 0, 0], lhat := 0, bits := some (-1000), timestamp := 0, stateRoot := [0, 0, 0, 0, 0, 0, 0, 0, 0, 0, 0, 0, 0, 0, 0, 0, 0, 0, 0, 0, 0, 0, 0, 0, 0, 0, 0, 0, 0, 0, 0, 0], nonce := 0 })], storeTip := some 3, hasRequestCallback := false }, outcome := ImportOutcome.ok, requests := [] }

/-- First-window header for the difficulty counterexample. -/
def c4First : Header := ⟨1, zeros32, 0, some (-1000), 0, zeros32, 0⟩

/-- Retarget tip with bits −5, one second after the window start. -/
def c4Tip : Header := ⟨2016, zeros32, 0, some (-5), 1000000000, zeros32, 0⟩

/-- A reader holding exactly the first-window header. -/
def c4Reader : Nat → Option Header := fun h => if h = 1 then some c4First else none

/-- A crypto oracle whose recovery always fails (irrelevant for blocks
without transactions). -/
def trivialCrypto : CryptoOracle := ⟨fun _ => [], fun _ _ => none, fun p => p⟩

/-- An LLM that always answers the empty string. -/
def emptyInfer : String → Int → Option String := fun _ _ => some ("")

/-- A block whose loss claim matches the replayed loss of the empty
output and whose `bits` is 2^63, outside the `int64` range. -/
def c2Block : Block :=
  ⟨⟨1, zeros32, lossOfOutput (""), some ((I64HALF : Nat) : Int), 0, zeros32, 0⟩, [], [], 0, []⟩

/-- A block with loss claim 0 and target −1. -/
def c2WitnessBlock : Block := ⟨⟨2, zeros32, 0, some (-1), 0, zeros32, 0⟩, [], [], 0, []⟩

/-- A block whose header has nil `bits`. -/
def nilBitsBlk : Block := ⟨⟨42, zeros32, -123, none, 99, zeros32, 5⟩, [], [], 1234, []⟩

/-- What `nilBitsBlk` becomes after an encode/decode round trip. -/
def nilBitsRound : Block := ⟨⟨42, zeros32, -123, some 0, 99, zeros32, 5⟩, [], [], 1234, []⟩

/-- A sample transaction with all byte fields populated. -/
def sampleTx : Tx :=
  ⟨[1, 2], [3, 4, 255], some 12345678901234567890, 7, 21000, some 1, [9], [10, 11]⟩

/-- A sample block exercising every field of the codec. -/
def sampleBlk : Block :=
  ⟨⟨42, zeros32, -123, some (-987654321), 99, zeros32, 5⟩, [sampleTx], [1, 2, 3], 1234, []⟩

/-- A trivial block at a given height. -/
def c9Block (h : Nat) : Block := ⟨⟨h, [], 0, some 1, 0, [], 0⟩, [], [], 0, []⟩

/-- A chain serving blocks at every height up to 1000. -/
def c9Chain : Nat → Option Block := fun h => if h ≤ 1000 then some (c9Block h) else none

/-! ## Helper lemmas -/

/-- `big.Int.Int64` is the identity on the signed 64-bit range. -/
theorem goInt64_of_small (b : Int) (hlo : -((I64HALF : Nat) : Int) ≤ b)
    (hhi : b < ((I64HALF : Nat) : Int)) : goInt64 b = b := by
  simp only [goInt64, U64, I64HALF] at *
  split_ifs <;> omega

/-- The easier-side saturation `if x > -1 then -1 else x` is a `min`. -/
theorem satMin (x : Int) : (if x > -1 then (-1 : Int) else x) = min x (-1) := by
  simp only [min_def]
  split_ifs <;> omega

/-- The harder-side saturation `if x < -2^63 then -2^63 else x` is a `max`. -/
theorem satMax (x : Int) :
    (if x < -((I64HALF : Nat) : Int) then -((I64HALF : Nat) : Int) else x) =
      max x (-((I64HALF : Nat) : Int)) := by
  simp only [max_def, I64HALF]
  split_ifs <;> omega

/-! ## C1 — header hashing -/

/-- C1: for every non-nil header `h`, `hash(h)` is SHA3-256 of the
48-byte little-endian concatenation `height(8) ∥ parent_hash(32) ∥
nonce(8)`; consequently any two headers agreeing on height, parent hash
and nonce — whatever their `loss_claim`, `bits`, `timestamp` or
`state_root` — have equal hashes. -/
theorem c1_header_hash (h : Header) :
    hashOfHeader (some h) = sha3_256 (u64le h.height ++ h.parentHash ++ u64le h.nonce) ∧
    ∀ h2 : Header, h.height = h2.height → h.parentHash = h2.parentHash →
      h.nonce = h2.nonce → hashOfHeader (some h) = hashOfHeader (some h2) := by
  refine ⟨rfl, ?_⟩
  intro h2 e1 e2 e3
  simp only [hashOfHeader, headerHash, e1, e2, e3]

/-- Witness for C1: two concrete headers differing only in loss claim,
bits, timestamp and state root hash identically. -/
theorem c1_header_hash_witness :
    hashOfHeader (some ⟨3, zeros32, 7, some 9, 11, zeros32, 4⟩) =
      hashOfHeader (some ⟨3, zeros32, -7, none, 0, List.replicate 32 3, 4⟩) :=
  (c1_header_hash ⟨3, zeros32, 7, some 9, 11, zeros32, 4⟩).2 _ rfl rfl rfl

/-! ## C10 — block subsidy -/

/-- C10: `GetSubsidy h` is `⌊50 / 2^(h div 210000)⌋`, and is exactly 0
for every height from the sixth halving (1,260,000) on, since the right
shift of 50 saturates at zero well before the 64-halving cutoff. -/
theorem c10_subsidy : ∀ h : Nat,
    getSubsidy h = ((50 / 2 ^ (h / 210000) : Nat) : Int) ∧
    (1260000 ≤ h → getSubsidy h = 0) := by
  intro h
  have hzero : 6 ≤ h / 210000 → (50 : Nat) / 2 ^ (h / 210000) = 0 := by
    intro h6
    apply Nat.div_eq_of_lt
    calc (50 : Nat) < 2 ^ 6 := by norm_num
    _ ≤ 2 ^ (h / 210000) := Nat.pow_le_pow_right (by norm_num) h6
  constructor
  · simp only [getSubsidy]
    split_ifs with hc
    · rw [hzero (by omega)]; rfl
    · rw [Nat.shiftRight_eq_div_pow]
  · intro hge
    have h6 : 6 ≤ h / 210000 := by omega
    simp only [getSubsidy]
    split_ifs with hc
    · rfl
    · rw [Nat.shiftRight_eq_div_pow, hzero h6]; rfl

/-- Witness for C10 at the sixth-halving boundary and at an interior
height. -/
theorem c10_subsidy_witness :
    (1260000 ≤ 1260000 ∧ getSubsidy 1260000 = 0) ∧
    getSubsidy 630000 = ((50 / 2 ^ (630000 / 210000) : Nat) : Int) :=
  ⟨⟨le_refl 1260000, (c10_subsidy 1260000).2 (le_refl 1260000)⟩, (c10_subsidy 630000).1⟩

/-! ## C8 — miner target selection (corrected) -/

/-- Counterexample to C8 as stated: with `parent.bits = -7` (which is
not ≥ 0, so the claim says the miner keeps it) the code falls back to
the CLI target. -/
theorem c8_counterexample :
    workLoopTarget (-7) (-100) = -100 ∧ ¬((-7 : Int) ≥ 0) ∧ ((-100 : Int) ≠ -7) := by
  decide

/-- C8 amended: for `parent.bits` in the `int64` range, the miner falls
back to the CLI target exactly when `parent.bits ≤ 0` (not `≥ 0`), and
otherwise uses `parent.bits`. -/
theorem c8_miner_target (b cli : Int) (hlo : -((I64HALF : Nat) : Int) ≤ b)
    (hhi : b < ((I64HALF : Nat) : Int)) :
    (b ≤ 0 → workLoopTarget b cli = cli) ∧ (0 < b → workLoopTarget b cli = b) := by
  simp only [workLoopTarget, goInt64_of_small b hlo hhi]
  constructor
  · intro hb; rw [if_pos hb]
  · intro hb; rw [if_neg (by omega)]

/-- Witness for C8 amended: a negative target falls back, a positive
one is kept. -/
theorem c8_miner_target_witness :
    workLoopTarget (-7) (-100) = -100 ∧ workLoopTarget 5 (-100) = 5 :=
  ⟨(c8_miner_target (-7) (-100) (by decide) (by decide)).1 (by decide),
   (c8_miner_target 5 (-100) (by decide) (by decide)).2 (by decide)⟩

/-! ## C9 — block-request cap (corrected) -/

set_option maxRecDepth 40000 in
/-- Counterexample to C9 as stated: a request for heights 0..1000
against a chain holding all of them is answered with 513 blocks, not at
most 512. -/
theorem c9_counterexample :
    (serveBlockReq c9Chain 0 1000).length = 513 ∧ ¬((513 : Nat) ≤ 512) := by
  decide

/-- C9 amended: the responder caps the inclusive range so that
`to − from ≤ 512`, i.e. it serves at most 513 heights and the response
holds at most 513 blocks. -/
theorem c9_blockreq (blockAt : Nat → Option Block) (frm hi : Nat) :
    (serveBlockReq blockAt frm hi).length ≤ 513 ∧
    blockReqCappedTo frm hi < frm % U64 + 513 := by
  have hcap : blockReqCappedTo frm hi < frm % U64 + 513 := by
    simp only [blockReqCappedTo, U64]
    split_ifs with hc <;> omega
  refine ⟨?_, hcap⟩
  calc (serveBlockReq blockAt frm hi).length
      ≤ (List.range' (frm % U64) (blockReqCappedTo frm hi + 1 - frm % U64)).length := by
        simp only [serveBlockReq]
        exact List.length_filterMap_le _ _
  _ = blockReqCappedTo frm hi + 1 - frm % U64 := List.length_range' _ _ _
  _ ≤ 513 := by omega

/-- Witness for C9 amended at the counterexample request. -/
theorem c9_blockreq_witness :
    (serveBlockReq c9Chain 0 1000).length ≤ 513 ∧
    blockReqCappedTo 0 1000 < 0 % U64 + 513 :=
  c9_blockreq c9Chain 0 1000

/-! ## C4 — difficulty retarget rounding (corrected) -/

/-- Counterexample to C4 as stated: with `tip.bits = -5` and a clamped
span of 302400 s, the code (Euclidean `big.Int.Div`) yields −2, while
the claimed round-toward-zero division (after saturation) yields −1. -/
theorem c4_counterexample :
    adjust c4Reader (some c4Tip) = (-2, false) ∧
    Int.tdiv ((-5) * 302400) 1209600 = -1 ∧
    max (min (Int.tdiv ((-5) * 302400) 1209600) (-1)) (-((I64HALF : Nat) : Int)) = -1 ∧
    ((-2 : Int) ≠ -1) := by
  decide

/-- C4 amended: for a tip at height ≥ 2016 whose first-window header is
present, `Adjust` returns `tip.bits × clamped_span / expected_span`
where the span (in whole seconds, floored from nanoseconds) is clamped
to `[302400, 4838400] = [expected/4, expected×4]`, the division is
Euclidean (floor, for this positive divisor) rather than
round-toward-zero, and the result is saturated into `[−2^63, −1]`. -/
theorem c4_adjust (reader : Nat → Option Header) (tip : Header) (tipBits : Int)
    (htall : ¬ tip.height < retargetInterval) (hbits : tip.bits = some tipBits)
    (first : Header) (hfirst : reader (tip.height - retargetInterval + 1) = some first) :
    adjust reader (some tip) =
      (max (min (tipBits * (max 302400 (min 4838400
             ((tip.timestamp - first.timestamp) / 1000000000))) / 1209600)
           (-1))
         (-((I64HALF : Nat) : Int)),
       false) := by
  have htall2 : ¬ tip.height < 2016 := by simpa [retargetInterval] using htall
  have hfirst2 : reader (tip.height - 2016 + 1) = some first := by
    simpa [retargetInterval] using hfirst
  simp only [adjust, retargetInterval, targetBlockSpacingSec, maxAdjustmentFactor,
    hbits, if_neg htall2, hfirst2, Nat.cast_ofNat]
  norm_num
  have key : (if tip.timestamp - first.timestamp < 302400000000000 then (302400000000000 : Int)
      else if 4838400000000000 < tip.timestamp - first.timestamp then 4838400000000000
      else tip.timestamp - first.timestamp) / 1000000000
      = 302400 ⊔ (4838400 ⊓ (tip.timestamp - first.timestamp) / 1000000000) := by
    split_ifs with hlt hgt
    · have he : (302400000000000 : Int) / 1000000000 = 302400 := by decide
      rw [he, min_eq_right
            (by omega : (tip.timestamp - first.timestamp) / 1000000000 ≤ 4838400),
          max_eq_left (by omega : (tip.timestamp - first.timestamp) / 1000000000 ≤ 302400)]
    · have he : (4838400000000000 : Int) / 1000000000 = 4838400 := by decide
      rw [he, min_eq_left
            (by omega : (4838400 : Int) ≤ (tip.timestamp - first.timestamp) / 1000000000),
          max_eq_right (by norm_num : (302400 : Int) ≤ 4838400)]
    · rw [min_eq_right
            (by omega : (tip.timestamp - first.timestamp) / 1000000000 ≤ 4838400),
          max_eq_right
            (by omega : (302400 : Int) ≤ (tip.timestamp - first.timestamp) / 1000000000)]
  rw [key, satMin, satMax]

/-- Witness for C4 amended at the concrete counterexample reader. -/
theorem c4_adjust_witness :
    adjust c4Reader (some c4Tip) =
      (max (min ((-5) * (max 302400 (min 4838400
             ((c4Tip.timestamp - c4First.timestamp) / 1000000000))) / 1209600)
           (-1))
         (-((I64HALF : Nat) : Int)),
       false) :=
  c4_adjust c4Reader c4Tip (-5) (by decide) rfl c4First rfl

/-! ## C3 — procedural quiz (spec-modelled PRG) -/

/-- Draws are bounded by the modulus. -/
theorem prgNext_fst_le (st k : Nat) (hk : 0 < k) : (prgNext st k).1 ≤ k - 1 := by
  simp only [prgNext]
  have := Nat.mod_lt (lehmerNext st) hk
  omega

/-- C3: `procedural_quiz` is a pure function of `(height, nonce)` (two
calls agree); it returns `3 + (r mod 3) ∈ [3,5]` questions; question `i`
is rendered from the generator re-seeded with
`seed₀ + i·1000 + (nonce mod 10000)` (wrapping signed 64-bit sums, with
`seed₀ = height + nonce`); every rendered question matches one of the
four templates with the stated operand ranges; and
`procedural_quiz(42,7) ≠ procedural_quiz(42,8)`. -/
theorem c3_quiz :
    (∀ h n : Nat, proceduralQuiz h n = proceduralQuiz h n) ∧
    (∀ h n : Nat,
      3 ≤ (proceduralQuiz h n).length ∧ (proceduralQuiz h n).length ≤ 5 ∧
      (proceduralQuiz h n).length =
        3 + (prgNext (prgSeed (wrap64 (int64OfU64 h + int64OfU64 n))) 3).1 ∧
      ∀ i, i < (proceduralQuiz h n).length →
        (proceduralQuiz h n).getD i ("") =
          quizQuestion (questionSeed (wrap64 (int64OfU64 h + int64OfU64 n)) n i)) ∧
    (∀ s : Int, QuestionShape (quizQuestion s)) ∧
    proceduralQuiz 42 7 ≠ proceduralQuiz 42 8 := by
  refine ⟨fun h n => rfl, fun h n => ?_, fun s => ?_, by decide⟩
  · have hr := prgNext_fst_le (prgSeed (wrap64 (int64OfU64 h + int64OfU64 n))) 3 (by norm_num)
    refine ⟨?_, ?_, ?_, ?_⟩
    · simp only [proceduralQuiz, List.length_map, List.length_range]
      omega
    · simp only [proceduralQuiz, List.length_map, List.length_range]
      omega
    · simp only [proceduralQuiz, List.length_map, List.length_range]
    · intro i hi
      simp only [proceduralQuiz, List.length_map, List.length_range] at hi
      simp only [proceduralQuiz, List.getD_eq_getElem?_getD, List.getElem?_map,
        List.getElem?_range hi]
      rfl
  · have b1000 := prgNext_fst_le (prgNext (prgSeed s) 4).2 1000 (by norm_num)
    have b1000b := prgNext_fst_le (prgNext (prgNext (prgSeed s) 4).2 1000).2 1000 (by norm_num)
    have b50 := prgNext_fst_le (prgNext (prgSeed s) 4).2 50 (by norm_num)
    have b50b := prgNext_fst_le (prgNext (prgNext (prgSeed s) 4).2 50).2 50 (by norm_num)
    have b10 := prgNext_fst_le (prgNext (prgSeed s) 4).2 10 (by norm_num)
    have b5 := prgNext_fst_le (prgNext (prgNext (prgSeed s) 4).2 10).2 5 (by norm_num)
    have bidx := prgNext_fst_le (prgNext (prgSeed s) 4).2 5 (by norm_num)
    simp only [quizQuestion, QuestionShape]
    by_cases h0 : (prgNext (prgSeed s) 4).1 = 0
    · rw [if_pos h0]
      exact Or.inl ⟨1 + (prgNext (prgNext (prgSeed s) 4).2 1000).1,
        1 + (prgNext (prgNext (prgNext (prgSeed s) 4).2 1000).2 1000).1,
        by omega, by omega, by omega, by omega, rfl⟩
    · rw [if_neg h0]
      by_cases h1 : (prgNext (prgSeed s) 4).1 = 1
      · rw [if_pos h1]
        exact Or.inr (Or.inl ⟨1 + (prgNext (prgNext (prgSeed s) 4).2 50).1,
          1 + (prgNext (prgNext (prgNext (prgSeed s) 4).2 50).2 50).1,
          by omega, by omega, by omega, by omega, rfl⟩)
      · rw [if_neg h1]
        by_cases h2 : (prgNext (prgSeed s) 4).1 = 2
        · rw [if_pos h2]
          exact Or.inr (Or.inr (Or.inl ⟨1 + (prgNext (prgNext (prgSeed s) 4).2 10).1,
            1 + (prgNext (prgNext (prgNext (prgSeed s) 4).2 10).2 5).1,
            by omega, by omega, by omega, by omega, rfl⟩))
        · rw [if_neg h2]
          refine Or.inr (Or.inr (Or.inr ?_))
          have hcases : (prgNext (prgNext (prgSeed s) 4).2 5).1 = 0 ∨
              (prgNext (prgNext (prgSeed s) 4).2 5).1 = 1 ∨
              (prgNext (prgNext (prgSeed s) 4).2 5).1 = 2 ∨
              (prgNext (prgNext (prgSeed s) 4).2 5).1 = 3 ∨
              (prgNext (prgNext (prgSeed s) 4).2 5).1 = 4 := by omega
          rcases hcases with hc | hc | hc | hc | hc <;> rw [hc]
          · exact ⟨"apple", by simp, rfl⟩
          · exact ⟨"banana", by simp, rfl⟩
          · exact ⟨"cherry", by simp, rfl⟩
          · exact ⟨"date", by simp, rfl⟩
          · exact ⟨"elderberry", by simp, rfl⟩

/-- Witness for C3 at concrete inputs. -/
theorem c3_quiz_witness :
    3 ≤ (proceduralQuiz 42 7).length ∧ QuestionShape (quizQuestion 56) :=
  ⟨(c3_quiz.2.1 42 7).1, c3_quiz.2.2.1 56⟩

/-! ## C2 — validator replay path (corrected) -/

/-- If every transaction verifies, the loop reports no failure. -/
theorem firstInvalidTx_eq_none (co : CryptoOracle) (txs : List Tx) (k : Nat)
    (h : ∀ tx ∈ txs, txVerify co tx = none) : firstInvalidTx co txs k = none := by
  induction txs generalizing k with
  | nil => rfl
  | cons t rest ih =>
    have ht := h t (List.mem_cons_self t rest)
    simp only [firstInvalidTx, ht]
    exact ih (k + 1) fun tx hm => h tx (List.mem_cons_of_mem t hm)

/-- The loop reports the first failing transaction, with its index. -/
theorem firstInvalidTx_eq_some (co : CryptoOracle) :
    ∀ (txs : List Tx) (k i : Nat) (tx : Tx) (msg : String),
    txs[i]? = some tx → txVerify co tx = some msg →
    (∀ j tx2, j < i → txs[j]? = some tx2 → txVerify co tx2 = none) →
    firstInvalidTx co txs k = some (k + i, msg) := by
  intro txs
  induction txs with
  | nil =>
    intro k i tx msg hget
    simp at hget
  | cons t rest ih =>
    intro k i tx msg hget hbad hpre
    cases i with
    | zero =>
      rw [List.getElem?_cons_zero] at hget
      have htx : t = tx := by injection hget
      simp only [firstInvalidTx, htx, hbad, Nat.add_zero]
    | succ i2 =>
      have hpre0 := hpre 0 t (Nat.succ_pos i2) (List.getElem?_cons_zero)
      rw [List.getElem?_cons_succ] at hget
      simp only [firstInvalidTx, hpre0]
      have hrec := ih (k + 1) i2 tx msg hget hbad
        (fun j tx2 hj hg => hpre (j + 1) tx2 (by omega) (by rwa [List.getElem?_cons_succ]))
      rw [hrec]
      simp only [Option.some.injEq, Prod.mk.injEq]
      exact ⟨by omega, trivial⟩

/-- Folding prompt concatenation never shrinks the accumulator. -/
theorem promptFold_length_le : ∀ (l : List String) (init : String),
    init.length ≤ (l.foldl (fun acc q => acc ++ q ++ "\n") init).length := by
  intro l
  induction l with
  | nil => intro init; simp
  | cons q rest ih =>
    intro init
    calc init.length ≤ (init ++ q ++ "\n").length := by
          simp only [String.length_append]
          omega
    _ ≤ _ := ih (init ++ q ++ "\n")

/-- The prompt of a non-empty quiz list is non-empty. -/
theorem quizPrompt_ne_empty (l : List String) (h : l ≠ []) : quizPrompt l ≠ "" := by
  cases l with
  | nil => exact absurd rfl h
  | cons q rest =>
    intro hcontr
    have h1 : ("" ++ q ++ "\n").length ≤ (quizPrompt (q :: rest)).length := by
      simp only [quizPrompt, List.foldl_cons]
      exact promptFold_length_le rest ("" ++ q ++ "\n")
    rw [hcontr] at h1
    simp only [String.length_append] at h1
    have hnl : ("\n" : String).length = 1 := rfl
    have hz : ("" : String).length = 0 := rfl
    omega

/-- The quiz list always holds at least three questions. -/
theorem proceduralQuiz_ne_nil (h n : Nat) : proceduralQuiz h n ≠ [] := by
  simp only [proceduralQuiz]
  intro hc
  have hlen := congrArg List.length hc
  simp only [List.length_map, List.length_range, List.length_nil] at hlen
  omega

set_option maxRecDepth 200000 in
/-- Counterexample to C2 as stated: a block whose `bits` is 2^63 and
whose loss claim matches the replay is rejected with `TargetNotMet`
although the replayed loss does not exceed `bits` as an integer — the
code compares against `Bits.Int64()`, the 64-bit truncation. -/
theorem c2_counterexample :
    verifyBlock (some emptyInfer) trivialCrypto c2Block = some VerifyErr.targetNotMet ∧
    c2Block.header.bits = some ((I64HALF : Nat) : Int) ∧
    lossOfOutput ("") = c2Block.header.lhat ∧
    ¬ lossOfOutput ("") > ((I64HALF : Nat) : Int) := by
  refine ⟨by decide, rfl, rfl, by decide⟩

/-- C2 amended: assuming the model loads, every signature verifies and
inference succeeds with output `out`, `VerifyBlock` fails `InvalidLoss`
exactly when the replayed loss (signed 64-bit LE read of the first 8
bytes of SHA-256(out)) differs from `loss_claim`; it fails
`TargetNotMet` exactly when the loss matches but exceeds **the `int64`
truncation of `bits`** (`Bits.Int64()`, equal to `bits` whenever `bits`
fits in signed 64 bits); it succeeds otherwise.  Coinbase transactions
(empty `from`) are skipped by signature verification, and a first
failing transaction aborts the verification with its index before any
replay. -/
theorem c2_verify (infer : String → Int → Option String) (co : CryptoOracle) (b : Block)
    (bits : Int) (hbits : b.header.bits = some bits)
    (hsig : ∀ tx ∈ b.transactions, txVerify co tx = none)
    (out : String)
    (hinfer : infer (quizPrompt (proceduralQuiz b.header.height b.header.nonce))
        (llmSeedOfHeight b.header.height) = some out) :
    (verifyBlock (some infer) co b = some VerifyErr.invalidLoss ↔
       lossOfOutput out ≠ b.header.lhat) ∧
    (verifyBlock (some infer) co b = some VerifyErr.targetNotMet ↔
       lossOfOutput out = b.header.lhat ∧ lossOfOutput out > goInt64 bits) ∧
    (verifyBlock (some infer) co b = none ↔
       lossOfOutput out = b.header.lhat ∧ ¬ lossOfOutput out > goInt64 bits) ∧
    (∀ tx : Tx, tx.fromAddr = [] → txVerify co tx = none) ∧
    (∀ (b2 : Block) (i : Nat) (tx : Tx) (msg : String),
       b2.transactions[i]? = some tx → txVerify co tx = some msg →
       (∀ j tx2, j < i → b2.transactions[j]? = some tx2 → txVerify co tx2 = none) →
       verifyBlock (some infer) co b2 = some (VerifyErr.txInvalid i msg)) := by
  have hfi : firstInvalidTx co b.transactions 0 = none :=
    firstInvalidTx_eq_none co b.transactions 0 hsig
  have hne : quizPrompt (proceduralQuiz b.header.height b.header.nonce) ≠ "" :=
    quizPrompt_ne_empty _ (proceduralQuiz_ne_nil b.header.height b.header.nonce)
  refine ⟨?_, ?_, ?_, fun tx h => by simp [txVerify, h], ?_⟩
  · simp only [verifyBlock, hfi, if_neg hne, hinfer, hbits]
    by_cases hl : lossOfOutput out ≠ b.header.lhat
    · simp [hl]
    · push_neg at hl
      by_cases ht : lossOfOutput out > goInt64 bits <;> simp [hl, ht]
  · simp only [verifyBlock, hfi, if_neg hne, hinfer, hbits]
    by_cases hl : lossOfOutput out ≠ b.header.lhat
    · simp [hl]
    · push_neg at hl
      by_cases ht : lossOfOutput out > goInt64 bits <;> simp [hl, ht]
  · simp only [verifyBlock, hfi, if_neg hne, hinfer, hbits]
    by_cases hl : lossOfOutput out ≠ b.header.lhat
    · simp [hl]
    · push_neg at hl
      by_cases ht : lossOfOutput out > goInt64 bits <;> simp [hl, ht]
  · intro b2 i tx msg hget hbad hpre
    have hfirst := firstInvalidTx_eq_some co b2.transactions 0 i tx msg hget hbad hpre
    simp only [verifyBlock, hfirst, Nat.zero_add]

/-- Witness for C2 amended at a concrete block with target −1. -/
theorem c2_verify_witness :
    verifyBlock (some emptyInfer) trivialCrypto c2WitnessBlock = some VerifyErr.invalidLoss ↔
      lossOfOutput ("") ≠ c2WitnessBlock.header.lhat :=
  (c2_verify emptyInfer trivialCrypto c2WitnessBlock (-1) rfl
    (by intro tx h; simp [c2WitnessBlock] at h) ("") rfl).1

/-! ## C5 — import routing (corrected) -/

/-- C5 amended: (a) when a block already exists at the incoming height,
an incoming block with a different hash whose parent is not the current
head's hash is routed to the side branches, a reorg is attempted, and
the import returns ok; (b)/(c) in every other already-exists case
the import fails `Duplicate`; (d) when no block exists at that height and **no
block of the by-height map** (not `by_hash`: the code scans `c.blocks`,
see the counterexample) has the parent hash, the block is appended to
`orphan_pool[parent_hash]`, import fails `OrphanQueued`, and — when the
sync callback is installed — the missing parent is requested from
peers. -/
theorem c5_import (st : ChainState) (b : Header) :
    (∀ existing hb, alookup st.blocks b.height = some existing →
       alookup st.blocks st.head = some hb →
       headerHash existing ≠ headerHash b → b.parentHash ≠ headerHash hb →
       importBlock st b = ⟨checkReorg (addToSideBranch st b), ImportOutcome.ok, []⟩) ∧
    (∀ existing, alookup st.blocks b.height = some existing →
       headerHash existing = headerHash b →
       importBlock st b = ⟨st, ImportOutcome.duplicate, []⟩) ∧
    (∀ existing hb, alookup st.blocks b.height = some existing →
       alookup st.blocks st.head = some hb →
       b.parentHash = headerHash hb →
       importBlock st b = ⟨st, ImportOutcome.duplicate, []⟩) ∧
    (alookup st.blocks b.height = none →
     (∀ p ∈ st.blocks, headerHash p.2 ≠ b.parentHash) →
     importBlock st b =
       ⟨{ st with orphanPool := (ainsert st.orphanPool b.parentHash
            ((alookup st.orphanPool b.parentHash).getD [] ++ [b])) },
        ImportOutcome.orphanQueued,
        if st.hasRequestCallback then [b.parentHash] else []⟩) := by
  refine ⟨?_, ?_, ?_, ?_⟩
  · intro existing hb hex hhb hne hpar
    simp only [importBlock, importWith, hex, hhb, hashOfHeader]
    rw [if_pos ⟨hne, hpar⟩]
  · intro existing hex heq
    simp only [importBlock, importWith, hex]
    rw [if_neg (fun hcon => hcon.1 heq)]
  · intro existing hb hex hhb hpar
    simp only [importBlock, importWith, hex, hhb, hashOfHeader]
    rw [if_neg (fun hcon => hcon.2 hpar)]
  · intro hnone hnoparent
    have hfind : (st.blocks.find? fun p => headerHash p.2 = b.parentHash) = none := by
      rw [List.find?_eq_none]
      intro p hp
      simp [hnoparent p hp]
    simp only [importBlock, importWith, hnone, hfind, addToOrphanPool]

set_option maxRecDepth 200000 in
/-- Witness for C5 amended: all four routes exercised on concrete
states derived from a fresh genesis chain. -/
theorem c5_import_witness :
    importBlock (createGenesis (-1000) 0 false) ⟨0, zeros32, 0, some 1, 0, zeros32, 1⟩ =
      ⟨checkReorg (addToSideBranch (createGenesis (-1000) 0 false)
          ⟨0, zeros32, 0, some 1, 0, zeros32, 1⟩),
       ImportOutcome.ok, []⟩ ∧
    importBlock (createGenesis (-1000) 0 false) g0 =
      ⟨createGenesis (-1000) 0 false, ImportOutcome.duplicate, []⟩ ∧
    importBlock (createGenesis (-1000) 0 false) ⟨0, headerHash g0, 0, some 1, 0, zeros32, 2⟩ =
      ⟨createGenesis (-1000) 0 false, ImportOutcome.duplicate, []⟩ ∧
    importBlock (createGenesis (-1000) 0 false) ⟨5, List.replicate 32 9, 0, some 1, 0, zeros32, 0⟩ =
      ⟨{ createGenesis (-1000) 0 false with orphanPool :=
           (ainsert (createGenesis (-1000) 0 false).orphanPool (List.replicate 32 9)
             ((alookup (createGenesis (-1000) 0 false).orphanPool
                (List.replicate 32 9)).getD [] ++
              [⟨5, List.replicate 32 9, 0, some 1, 0, zeros32, 0⟩])) },
       ImportOutcome.orphanQueued,
       if (createGenesis (-1000) 0 false).hasRequestCallback
       then [List.replicate 32 9] else []⟩ :=
  ⟨(c5_import (createGenesis (-1000) 0 false) ⟨0, zeros32, 0, some 1, 0, zeros32, 1⟩).1
     g0 g0 (by decide) (by decide) (by decide) (by decide),
   (c5_import (createGenesis (-1000) 0 false) g0).2.1 g0 (by decide) (by decide),
   (c5_import (createGenesis (-1000) 0 false) ⟨0, headerHash g0, 0, some 1, 0, zeros32, 2⟩).2.2.1
     g0 g0 (by decide) (by decide) (by decide),
   (c5_import (createGenesis (-1000) 0 false)
     ⟨5, List.replicate 32 9, 0, some 1, 0, zeros32, 0⟩).2.2.2 (by decide) (by decide)⟩

set_option maxRecDepth 1000000 in
set_option maxHeartbeats 4000000 in
/-- Importing `x2` into a fresh genesis chain yields `c5MidLit`. -/
theorem c5_mid_eq : (importBlock (createGenesis (-1000) 0 false) x2).state = c5MidLit := by
  decide

set_option maxRecDepth 1000000 in
set_option maxHeartbeats 4000000 in
/-- `c5State` evaluates to `c5StateLit`. -/
theorem c5_state_eq : c5State = c5StateLit := by
  show (importBlock (importBlock (createGenesis (-1000) 0 false) x2).state a1).state = c5StateLit
  rw [c5_mid_eq]
  decide

set_option maxRecDepth 1000000 in
set_option maxHeartbeats 4000000 in
/-- Importing `c5Child` into `c5State` evaluates to `c5ResultLit`. -/
theorem c5_result_eq : importBlock c5State c5Child = c5ResultLit := by
  rw [c5_state_eq]
  decide

set_option maxRecDepth 1000000 in
set_option maxHeartbeats 4000000 in
/-- Counterexample to C5 as stated (the `by_hash` clause): in the
reachable state `c5State`, block `c5Child` has no block at its height
and its parent `x2` is **absent from `by_hash`** (`blockHashIndex`), yet
the import succeeds instead of failing `OrphanQueued`: the code scans the
by-height map, where the reorged-in `x2` is present. -/
theorem c5_counterexample :
    alookup c5State.blocks c5Child.height = none ∧
    alookup c5State.blockHashIndex c5Child.parentHash = none ∧
    (importBlock c5State c5Child).outcome = ImportOutcome.ok ∧
    (importBlock c5State c5Child).outcome ≠ ImportOutcome.orphanQueued ∧
    (importBlock c5State c5Child).state.orphanPool = [] := by
  refine ⟨?_, ?_, ?_, ?_, ?_⟩
  · rw [c5_state_eq]; decide
  · rw [c5_state_eq]; decide
  · rw [c5_result_eq]; decide
  · rw [c5_result_eq]; decide
  · rw [c5_result_eq]; decide

/-! ## C6 — reorg behaviour -/

/-- `alookup` on a cons. -/
theorem alookup_cons {α β : Type} [DecidableEq α] (p : α × β) (m : List (α × β)) (k : α) :
    alookup (p :: m) k = if p.1 = k then some p.2 else alookup m k := by
  simp only [alookup, List.find?]
  by_cases hp : p.1 = k
  · simp [hp]
  · simp [hp]

/-- Deletion does not affect other keys. -/
theorem alookup_aerase_ne {α β : Type} [DecidableEq α] (m : List (α × β)) (k k2 : α)
    (h : k2 ≠ k) : alookup (aerase m k) k2 = alookup m k2 := by
  induction m with
  | nil => rfl
  | cons p rest ih =>
    rw [aerase, List.filter_cons]
    by_cases hp : p.1 = k
    · rw [if_neg (by simp [hp])]
      rw [alookup_cons, if_neg (fun hc => h (hp.symm.trans hc).symm)]
      exact ih
    · rw [if_pos (by simp [hp])]
      rw [alookup_cons, alookup_cons]
      by_cases hp2 : p.1 = k2
      · rw [if_pos hp2, if_pos hp2]
      · rw [if_neg hp2, if_neg hp2]
        exact ih

/-- Insert-or-replace then look up the same key. -/
theorem alookup_ainsert_self {α β : Type} [DecidableEq α] (m : List (α × β)) (k : α) (v : β) :
    alookup (ainsert m k v) k = some v := by
  rw [ainsert, alookup_cons, if_pos rfl]

/-- Insert-or-replace does not affect other keys. -/
theorem alookup_ainsert_ne {α β : Type} [DecidableEq α] (m : List (α × β)) (k k2 : α) (v : β)
    (h : k2 ≠ k) : alookup (ainsert m k v) k2 = alookup m k2 := by
  rw [ainsert, alookup_cons, if_neg (fun hc => h hc.symm)]
  exact alookup_aerase_ne m k k2 h

/-- `reorgApply` leaves the side branches unchanged. -/
theorem reorgApply_sideBranches (s : ChainState) (blk : Header) :
    (reorgApply s blk).sideBranches = s.sideBranches := rfl

/-- The fold of `reorgApply` leaves the side branches unchanged. -/
theorem foldl_reorgApply_sideBranches :
    ∀ (br : List Header) (s : ChainState),
    (br.foldl reorgApply s).sideBranches = s.sideBranches := by
  intro br
  induction br with
  | nil => intro s; rfl
  | cons b rest ih => intro s; rw [List.foldl_cons, ih]; rfl

/-- `reorgToBranch` leaves the side branches unchanged. -/
theorem reorgToBranch_sideBranches (st : ChainState) (ph : List Nat) (br : List Header) :
    (reorgToBranch st ph br).sideBranches = st.sideBranches := by
  simp only [reorgToBranch]
  rw [foldl_reorgApply_sideBranches]

/-- After the apply fold, the head is the height of the last block. -/
theorem foldl_reorgApply_head :
    ∀ (br : List Header) (s : ChainState) (tipb : Header), br.getLast? = some tipb →
    (br.foldl reorgApply s).head = tipb.height := by
  intro br
  induction br with
  | nil => intro s tipb h; cases h
  | cons b rest ih =>
    intro s tipb h
    cases rest with
    | nil =>
      rw [List.getLast?_singleton] at h
      injection h with h2
      rw [← h2]
      rfl
    | cons c t =>
      rw [List.getLast?_cons_cons] at h
      rw [List.foldl_cons]
      exact ih (reorgApply s b) tipb h
/-- `reorgToBranch` moves the head to the branch tip's height. -/
theorem reorgToBranch_head (st : ChainState) (ph : List Nat) (br : List Header) (tipb : Header)
    (h : br.getLast? = some tipb) : (reorgToBranch st ph br).head = tipb.height := by
  simp only [reorgToBranch]
  exact foldl_reorgApply_head br _ tipb h

/-- Unfolding `checkReorgStep` on an empty branch. -/
theorem checkReorgStep_eq_none (s : ChainState) (e : List Nat × List Header)
    (hx : e.2.getLast? = none) : checkReorgStep s e = s := by
  unfold checkReorgStep
  rw [hx]

/-- Unfolding `checkReorgStep` on a branch with tip `tipx`. -/
theorem checkReorgStep_eq_some (s : ChainState) (e : List Nat × List Header) (tipx : Header)
    (hx : e.2.getLast? = some tipx) :
    checkReorgStep s e =
      if tipx.height > s.head then
        { reorgToBranch s e.1 e.2 with sideBranches := aerase s.sideBranches e.1 }
      else s := by
  unfold checkReorgStep
  rw [hx]

/-- The branches surviving the fold of `checkReorgStep` all have tips at
or below the final head. -/
theorem checkReorgAux_inv :
    ∀ (l : List (List Nat × List Header)) (s : ChainState),
    (∀ e ∈ s.sideBranches, e ∉ l → ∀ tipb, e.2.getLast? = some tipb → tipb.height ≤ s.head) →
    ∀ e ∈ (l.foldl checkReorgStep s).sideBranches, ∀ tipb, e.2.getLast? = some tipb →
      tipb.height ≤ (l.foldl checkReorgStep s).head := by
  intro l
  induction l with
  | nil =>
    intro s hpre e he tipb htip
    exact hpre e he (by simp) tipb htip
  | cons x rest ih =>
    intro s hpre
    rw [List.foldl_cons]
    apply ih
    intro e he hne tipb htip
    cases hx : x.2.getLast? with
    | none =>
      rw [checkReorgStep_eq_none s x hx] at he ⊢
      refine hpre e he ?_ tipb htip
      intro hm
      rcases List.mem_cons.mp hm with hc | hc
      · rw [hc] at htip
        rw [htip] at hx
        cases hx
      · exact hne hc
    | some tipx =>
      rw [checkReorgStep_eq_some s x tipx hx] at he ⊢
      by_cases hgt : tipx.height > s.head
      · rw [if_pos hgt] at he ⊢
        simp only [aerase, List.mem_filter, decide_eq_true_eq] at he
        have hmem : e ∈ s.sideBranches := he.1
        have hkey : e.1 ≠ x.1 := he.2
        have hnotin : e ∉ x :: rest := by
          intro hm
          rcases List.mem_cons.mp hm with hc | hc
          · exact hkey (by rw [hc])
          · exact hne hc
        have hle : tipb.height ≤ s.head := hpre e hmem hnotin tipb htip
        have hh := reorgToBranch_head s x.1 x.2 tipx hx
        simp only [hh]
        omega
      · rw [if_neg hgt] at he ⊢
        by_cases hex : e = x
        · rw [hex] at htip
          rw [htip] at hx
          injection hx with hx2
          rw [hx2]
          omega
        · refine hpre e he ?_ tipb htip
          intro hm
          rcases List.mem_cons.mp hm with hc | hc
          · exact hex hc
          · exact hne hc

/-- After `checkReorg`, no remaining non-empty side branch has a tip
above the head. -/
theorem checkReorg_inv (st : ChainState) :
    ∀ e ∈ (checkReorg st).sideBranches, ∀ tipb, e.2.getLast? = some tipb →
      tipb.height ≤ (checkReorg st).head := by
  simp only [checkReorg]
  exact checkReorgAux_inv st.sideBranches st (fun e he hne _ _ => absurd he hne)


/-- `reorgApply` updates the by-height map by insert-or-replace. -/
theorem reorgApply_blocks (s : ChainState) (blk : Header) :
    (reorgApply s blk).blocks = ainsert s.blocks blk.height blk := rfl

/-- The apply fold leaves heights outside the branch untouched. -/
theorem foldl_reorgApply_blocks_notmem :
    ∀ (br : List Header) (s : ChainState) (hh : Nat),
    (∀ blk ∈ br, blk.height ≠ hh) →
    alookup (br.foldl reorgApply s).blocks hh = alookup s.blocks hh := by
  intro br
  induction br with
  | nil => intro s hh _; rfl
  | cons b rest ih =>
    intro s hh hne
    rw [List.foldl_cons, ih _ hh (fun blk hm => hne blk (List.mem_cons_of_mem b hm))]
    rw [reorgApply_blocks]
    exact alookup_ainsert_ne s.blocks b.height hh b
      (fun hc => hne b (List.mem_cons_self b rest) hc.symm)

/-- After the apply fold, every branch block whose height is not
repeated later in the branch is found at its height. -/
theorem foldl_reorgApply_blocks_mem :
    ∀ (br : List Header) (s : ChainState) (i : Nat) (blk : Header),
    br[i]? = some blk →
    (∀ (j : Nat) (blkj : Header), br[j]? = some blkj → i < j → blkj.height ≠ blk.height) →
    alookup (br.foldl reorgApply s).blocks blk.height = some blk := by
  intro br
  induction br with
  | nil => intro s i blk h _; cases h
  | cons b rest ih =>
    intro s i blk h hdist
    cases i with
    | zero =>
      simp only [List.getElem?_cons_zero, Option.some.injEq] at h
      subst h
      rw [List.foldl_cons]
      have hrest : ∀ blkj ∈ rest, blkj.height ≠ b.height := by
        intro blkj hm
        rcases List.getElem?_of_mem hm with ⟨j, hj⟩
        refine hdist (j + 1) blkj ?_ (Nat.succ_pos j)
        rw [List.getElem?_cons_succ]
        exact hj
      rw [foldl_reorgApply_blocks_notmem rest _ b.height hrest, reorgApply_blocks]
      exact alookup_ainsert_self s.blocks b.height b
    | succ n =>
      rw [List.getElem?_cons_succ] at h
      rw [List.foldl_cons]
      refine ih (reorgApply s b) n blk h ?_
      intro j blkj hj hlt
      refine hdist (j + 1) blkj ?_ (by omega)
      rw [List.getElem?_cons_succ]
      exact hj

/-- P4 for `reorgToBranch`: head lands on the tip height and every
branch block is found at its height in the by-height map. -/
theorem reorgToBranch_p4 (st : ChainState) (ph : List Nat) (br : List Header)
    (first tipb : Header) (hlast : br.getLast? = some tipb)
    (hcontig : ∀ (i : Nat) (blk : Header), br[i]? = some blk → blk.height = first.height + i) :
    (reorgToBranch st ph br).head = tipb.height ∧
    ∀ (i : Nat) (blk : Header), br[i]? = some blk →
      alookup (reorgToBranch st ph br).blocks blk.height = some blk := by
  constructor
  · exact reorgToBranch_head st ph br tipb hlast
  · intro i blk h
    simp only [reorgToBranch]
    refine foldl_reorgApply_blocks_mem br _ i blk h ?_
    intro j blkj hj hlt
    have h1 := hcontig i blk h
    have h2 := hcontig j blkj hj
    omega

/-- A no-promotion import either does not return `ok` or ends in a state
that has just run `checkReorg`. -/
theorem importNoPromote_shape (st : ChainState) (b : Header) :
    (importNoPromote st b).outcome ≠ ImportOutcome.ok ∨
    (∃ s', (importNoPromote st b).state = checkReorg s') := by
  unfold importNoPromote importWith
  split
  · split
    · right; exact ⟨_, rfl⟩
    · left; simp
  · split
    · left; simp
    · split
      · left; simp
      · split
        · left; simp
        · split
          · left; simp
          · split
            · split
              · by_cases hadj : (adjust (fun hh => headerByHeight st hh) (some b)).2 = true
                · rw [if_pos hadj]; left; simp
                · rw [if_neg hadj]; right; exact ⟨_, rfl⟩
              · by_cases hadj : (adjust (fun hh => headerByHeight st hh) (some b)).2 = true
                · rw [if_pos hadj]; left; simp
                · rw [if_neg hadj]; right; exact ⟨_, rfl⟩
            · right; exact ⟨_, rfl⟩

/-- A no-promotion import that returns `ok` leaves no surviving side
branch with a tip above the head. -/
theorem importNoPromote_ok_inv (st : ChainState) (b : Header)
    (hok : (importNoPromote st b).outcome = ImportOutcome.ok) :
    ∀ e ∈ (importNoPromote st b).state.sideBranches, ∀ tipb,
      e.2.getLast? = some tipb → tipb.height ≤ (importNoPromote st b).state.head := by
  rcases importNoPromote_shape st b with hno | ⟨s', hs⟩
  · exact absurd hok hno
  · rw [hs]
    exact checkReorg_inv s'

set_option maxRecDepth 1000000 in
set_option maxHeartbeats 4000000 in
/-- C6: after a successful import the chain has just run `check_reorg`,
so no remaining side branch has a tip height above the head (every such
branch was applied by `reorg_to_branch` and its entry deleted); and a
reorg to a contiguous branch `br` moves the head to the tip height and
installs every branch block at its height in the by-height map (P4). -/
theorem c6_reorg (st stR stI : ChainState) (b : Header) (ph : List Nat)
    (br : List Header) (first tipb : Header)
    ( _hfirst : br.head? = some first) (hlast : br.getLast? = some tipb)
    (hcontig : ∀ (i : Nat) (blk : Header), br[i]? = some blk → blk.height = first.height + i)
    (hok : (importNoPromote stI b).outcome = ImportOutcome.ok) :
    (∀ e ∈ (checkReorg st).sideBranches, ∀ t, e.2.getLast? = some t →
        t.height ≤ (checkReorg st).head)
    ∧ ((reorgToBranch stR ph br).head = tipb.height
        ∧ ∀ (i : Nat) (blk : Header), br[i]? = some blk →
            alookup (reorgToBranch stR ph br).blocks blk.height = some blk)
    ∧ (∀ e ∈ (importNoPromote stI b).state.sideBranches, ∀ t,
        e.2.getLast? = some t → t.height ≤ (importNoPromote stI b).state.head) := by
  refine ⟨checkReorg_inv st, ?_, importNoPromote_ok_inv stI b hok⟩
  exact reorgToBranch_p4 stR ph br first tipb hlast hcontig

set_option maxRecDepth 1000000 in
set_option maxHeartbeats 4000000 in
/-- Witness for C6 at the genesis chain, the one-block branch `[x2]`
and the import of `a1`. -/
theorem c6_reorg_witness :
    ([x2].head? = some x2) ∧ ([x2].getLast? = some x2) ∧
    (∀ (i : Nat) (blk : Header), [x2][i]? = some blk → blk.height = x2.height + i) ∧
    (importNoPromote (createGenesis (-1000) 0 false) a1).outcome = ImportOutcome.ok ∧
    ((∀ e ∈ (checkReorg (createGenesis (-1000) 0 false)).sideBranches, ∀ t,
        e.2.getLast? = some t → t.height ≤ (checkReorg (createGenesis (-1000) 0 false)).head)
      ∧ ((reorgToBranch (createGenesis (-1000) 0 false) zeros32 [x2]).head = x2.height
          ∧ ∀ (i : Nat) (blk : Header), [x2][i]? = some blk →
              alookup (reorgToBranch (createGenesis (-1000) 0 false) zeros32 [x2]).blocks
                blk.height = some blk)
      ∧ (∀ e ∈ (importNoPromote (createGenesis (-1000) 0 false) a1).state.sideBranches, ∀ t,
          e.2.getLast? = some t →
            t.height ≤ (importNoPromote (createGenesis (-1000) 0 false) a1).state.head)) := by
  have hok : (importNoPromote (createGenesis (-1000) 0 false) a1).outcome =
      ImportOutcome.ok := by decide
  have hcontig : ∀ (i : Nat) (blk : Header), [x2][i]? = some blk →
      blk.height = x2.height + i := by
    intro i blk h
    cases i with
    | zero =>
      simp only [List.getElem?_cons_zero, Option.some.injEq] at h
      rw [← h]
      rfl
    | succ n => simp at h
  exact ⟨rfl, rfl, hcontig, hok,
    c6_reorg (createGenesis (-1000) 0 false) (createGenesis (-1000) 0 false)
      (createGenesis (-1000) 0 false) a1 zeros32 [x2] x2 x2 rfl rfl hcontig hok⟩


/-- A decimal digit character parses back to its digit. -/
theorem digitVal_digitChar (d : Nat) (h : d < 10) : digitVal (digitChar d) = some d := by
  interval_cases d <;> decide

/-- A decimal digit character is not the minus sign. -/
theorem digitChar_ne_minus (d : Nat) : digitChar d ≠ '-' := by
  unfold digitChar
  have hm : d % 10 < 10 := Nat.mod_lt _ (by omega)
  generalize d % 10 = m at hm ⊢
  interval_cases m <;> decide

/-- The digit list of `natDecimalAux` starts with a digit character. -/
theorem natDecimalAux_cons : ∀ (fuel n : Nat), ∃ d cs, natDecimalAux fuel n = digitChar d :: cs := by
  intro fuel
  induction fuel with
  | zero => intro n; exact ⟨n, [], rfl⟩
  | succ fuel ih =>
    intro n
    by_cases h10 : n < 10
    · exact ⟨n, [], by simp [natDecimalAux, h10]⟩
    · rcases ih (n / 10) with ⟨d, cs, h⟩
      exact ⟨d, cs ++ [digitChar (n % 10)], by simp [natDecimalAux, h10, h]⟩

/-- Folding the digit parser over the digits of `n` recovers `n` on top
of the shifted accumulator. -/
theorem natDecimalAux_foldlM :
    ∀ (fuel n acc : Nat), n ≤ fuel →
    List.foldlM (fun a c => (digitVal c).map fun d => a * 10 + d) acc (natDecimalAux fuel n) =
      some (acc * 10 ^ (natDecimalAux fuel n).length + n) := by
  intro fuel
  induction fuel with
  | zero =>
    intro n acc hn
    have h0 : n = 0 := by omega
    subst h0
    simp [natDecimalAux, List.foldlM_cons, List.foldlM_nil, digitVal_digitChar 0 (by omega)]
  | succ fuel ih =>
    intro n acc hn
    by_cases h10 : n < 10
    · simp [natDecimalAux, h10, List.foldlM_cons, List.foldlM_nil, digitVal_digitChar n h10]
    · have hdiv : n / 10 ≤ fuel := by omega
      have hd : digitVal (digitChar (n % 10)) = some (n % 10) :=
        digitVal_digitChar _ (Nat.mod_lt _ (by omega))
      simp only [natDecimalAux, if_neg h10, List.foldlM_append, ih (n / 10) acc hdiv,
        List.foldlM_cons, List.foldlM_nil, hd, Option.map_some', Option.some_bind,
        List.length_append, List.length_cons, List.length_nil]
      refine congrArg some ?_
      calc (acc * 10 ^ (natDecimalAux fuel (n / 10)).length + n / 10) * 10 + n % 10
          = acc * (10 ^ (natDecimalAux fuel (n / 10)).length * 10) + (n / 10 * 10 + n % 10) := by
            ring
        _ = acc * 10 ^ ((natDecimalAux fuel (n / 10)).length + (0 + 1)) + n := by
            simp only [Nat.zero_add, pow_succ]
            rw [Nat.div_add_mod']

/-- The decimal rendering of a natural number parses back to it. -/
theorem parseNatChars_natDecimal (n : Nat) : parseNatChars (natDecimal n) = some n := by
  rcases natDecimalAux_cons n n with ⟨d, cs, h⟩
  have hfold := natDecimalAux_foldlM n n 0 (le_refl n)
  unfold parseNatChars natDecimal
  rw [if_neg (by rw [h]; simp)]
  rw [hfold]
  simp

/-- The decimal rendering of an integer parses back to it. -/
theorem parseIntStr_roundtrip (x : Int) : parseIntStr (intDecimalStr x) = some x := by
  by_cases hneg : x < 0
  · have hdata : (intDecimalStr x).data = '-' :: natDecimal x.natAbs := by
      simp [intDecimalStr, if_pos hneg]
    simp only [parseIntStr, hdata, if_true, parseNatChars_natDecimal, Option.bind_eq_bind,
      Option.some_bind, Option.pure_def, Option.map_some', Option.some.injEq]
    omega
  · rcases natDecimalAux_cons x.natAbs x.natAbs with ⟨d, cs, h⟩
    have hdata : (intDecimalStr x).data = digitChar d :: cs := by
      simp [intDecimalStr, if_neg hneg, natDecimal, h]
    have h2 : parseNatChars (digitChar d :: cs) = some x.natAbs := by
      rw [show digitChar d :: cs = natDecimal x.natAbs from by rw [natDecimal, h]]
      exact parseNatChars_natDecimal _
    simp only [parseIntStr, hdata, if_neg (digitChar_ne_minus d), h2, Option.bind_eq_bind,
      Option.some_bind, Option.pure_def, Option.map_some', Option.some.injEq]
    omega

/-- The decimal rendering of an integer is never the empty string. -/
theorem intDecimalStr_ne_empty (x : Int) : intDecimalStr x ≠ ("") := by
  intro hc
  have hd : (intDecimalStr x).data = [] := by rw [hc]
  rcases natDecimalAux_cons x.natAbs x.natAbs with ⟨d, cs, h⟩
  rw [intDecimalStr] at hd
  by_cases hneg : x < 0
  · rw [if_pos hneg] at hd
    simp at hd
  · rw [if_neg hneg] at hd
    rw [natDecimal, h] at hd
    simp at hd

/-- A base64 alphabet character decodes back to its 6-bit value. -/
theorem b64Val_b64Char (v : Nat) (h : v < 64) : b64Val (b64Char v) = some v := by
  interval_cases v <;> decide

/-- A base64 alphabet character is never the padding character. -/
theorem b64Char_ne_pad (v : Nat) (h : v < 64) : b64Char v ≠ '=' := by
  interval_cases v <;> decide

/-- Base64 decoding inverts base64 encoding on byte lists. -/
theorem b64_roundtrip : ∀ (bs : List Nat), IsBytes bs → b64Decode (b64Encode bs) = some bs := by
  intro bs
  induction bs using b64Encode.induct with
  | case1 b0 b1 b2 rest ih =>
    intro h
    have hb0 : b0 < 256 := h b0 (by simp)
    have hb1 : b1 < 256 := h b1 (by simp)
    have hb2 : b2 < 256 := h b2 (by simp)
    have hrest : IsBytes rest := fun y hy => h y (by simp [hy])
    have e0 : b0 % 256 = b0 := Nat.mod_eq_of_lt hb0
    have e1 : b1 % 256 = b1 := Nat.mod_eq_of_lt hb1
    have e2 : b2 % 256 = b2 := Nat.mod_eq_of_lt hb2
    have hA : (b0 * 65536 + b1 * 256 + b2) / 262144 < 64 := by omega
    have hB : (b0 * 65536 + b1 * 256 + b2) / 4096 % 64 < 64 := by omega
    have hC : (b0 * 65536 + b1 * 256 + b2) / 64 % 64 < 64 := by omega
    have hD : (b0 * 65536 + b1 * 256 + b2) % 64 < 64 := by omega
    simp only [b64Encode, e0, e1, e2, b64Decode]
    rw [if_neg (fun hc => b64Char_ne_pad _ hC hc.1),
      if_neg (fun hc => b64Char_ne_pad _ hD hc.1),
      b64Val_b64Char _ hA, b64Val_b64Char _ hB, b64Val_b64Char _ hC, b64Val_b64Char _ hD,
      ih hrest]
    simp only [Option.some.injEq, List.cons_append, List.nil_append, List.cons.injEq, and_true]
    exact ⟨by omega, by omega, by omega⟩
  | case2 b0 b1 =>
    intro h
    have hb0 : b0 < 256 := h b0 (by simp)
    have hb1 : b1 < 256 := h b1 (by simp)
    have e0 : b0 % 256 = b0 := Nat.mod_eq_of_lt hb0
    have e1 : b1 % 256 = b1 := Nat.mod_eq_of_lt hb1
    have hA : (b0 * 65536 + b1 * 256) / 262144 < 64 := by omega
    have hB : (b0 * 65536 + b1 * 256) / 4096 % 64 < 64 := by omega
    have hC : (b0 * 65536 + b1 * 256) / 64 % 64 < 64 := by omega
    simp only [b64Encode, e0, e1, b64Decode]
    rw [if_neg (fun hc => b64Char_ne_pad _ hC hc.1), if_pos (by simp),
      b64Val_b64Char _ hA, b64Val_b64Char _ hB, b64Val_b64Char _ hC]
    simp only [Option.some.injEq, List.cons.injEq, and_true]
    exact ⟨by omega, by omega⟩
  | case3 b0 =>
    intro h
    have hb0 : b0 < 256 := h b0 (by simp)
    have e0 : b0 % 256 = b0 := Nat.mod_eq_of_lt hb0
    have hA : b0 * 65536 / 262144 < 64 := by omega
    have hB : b0 * 65536 / 4096 % 64 < 64 := by omega
    simp only [b64Encode, e0, b64Decode]
    rw [if_pos (by simp), b64Val_b64Char _ hA, b64Val_b64Char _ hB]
    simp only [Option.some.injEq, List.cons.injEq, and_true]
    omega
  | case4 =>
    intro _
    rfl

/-! ## C7 — codec round trip -/

/-- A base64 `[]byte` field decodes back to its bytes. -/
theorem jsonBytes_roundtrip (bs : List Nat) (h : IsBytes bs) :
    jsonBytes (some (bytesJson bs)) = some bs := by
  show b64Decode (String.mk (b64Encode bs)).data = some bs
  exact b64_roundtrip bs h

/-- A numeric-array byte field decodes back to its bytes. -/
theorem jsonByteArr_roundtrip : ∀ (bs : List Nat), IsBytes bs →
    jsonByteArr (some (byteArrJson bs)) = some bs := by
  intro bs
  induction bs with
  | nil => intro _; rfl
  | cons b rest ih =>
    intro h
    have hb : b < 256 := h b (List.mem_cons_self b rest)
    have hrest := ih (fun y hy => h y (List.mem_cons_of_mem b hy))
    have hcond : (0 : Int) ≤ (b : Int) ∧ (b : Int) < 256 :=
      ⟨Int.natCast_nonneg b, by exact_mod_cast hb⟩
    simp only [jsonByteArr, byteArrJson, List.map_cons, List.mapM_cons] at hrest ⊢
    rw [if_pos hcond, hrest]
    simp [Int.toNat_natCast]

/-- A `uint64` field decodes back to its value. -/
theorem jsonNat_natVal (n : Nat) : jsonNat (some (.num (n : Int))) = some n := by
  simp [jsonNat, Int.toNat_natCast]

/-- An `int64` field decodes back to its value. -/
theorem jsonInt_val (x : Int) : jsonInt (some (.num x)) = some x := rfl

/-- A nullable `*big.Int` field decodes back to its value. -/
theorem jsonOptInt_roundtrip (v : Option Int) : jsonOptInt (some (optIntJson v)) = some v := by
  cases v <;> rfl

/-- A textual instant decodes back to its value. -/
theorem jsonTime_roundtrip (t : Int) : jsonTime (some (.str (intDecimalStr t))) = some t := by
  show parseIntStr (intDecimalStr t) = some t
  exact parseIntStr_roundtrip t

/-- Decoding inverts encoding on headers with non-nil `bits` and
byte-valued byte arrays. -/
theorem decodeHeader_roundtrip (h : Header) (v : Int) (hb : h.bits = some v)
    (hp : IsBytes h.parentHash) (hs : IsBytes h.stateRoot) :
    decodeHeader (encodeHeader h) = some h := by
  have f1 : jsonField (encodeHeader h) "bits" =
      some (.str (match h.bits with | none => "0" | some w => intDecimalStr w)) := rfl
  have f2 : jsonField (encodeHeader h) "Height" = some (.num h.height) := rfl
  have f3 : jsonField (encodeHeader h) "ParentHash" = some (byteArrJson h.parentHash) := rfl
  have f4 : jsonField (encodeHeader h) "Lhat" = some (.num h.lhat) := rfl
  have f5 : jsonField (encodeHeader h) "Timestamp" = some (.str (intDecimalStr h.timestamp)) := rfl
  have f6 : jsonField (encodeHeader h) "StateRoot" = some (byteArrJson h.stateRoot) := rfl
  have f7 : jsonField (encodeHeader h) "nonce" = some (.num h.nonce) := rfl
  simp only [decodeHeader, f1, f2, f3, f4, f5, f6, f7, hb,
    if_neg (intDecimalStr_ne_empty v), parseIntStr_roundtrip, Option.getD_some,
    jsonNat_natVal, jsonByteArr_roundtrip h.parentHash hp, jsonInt_val,
    jsonTime_roundtrip, jsonByteArr_roundtrip h.stateRoot hs,
    Option.bind_eq_bind, Option.some_bind, Option.pure_def, Option.some.injEq]
  rw [← hb]

/-- Decoding inverts encoding on transactions with byte-valued byte
fields. -/
theorem decodeTx_roundtrip (tx : Tx) (h1 : IsBytes tx.fromAddr) (h2 : IsBytes tx.toAddr)
    (h3 : IsBytes tx.signature) (h4 : IsBytes tx.hash) :
    decodeTx (encodeTx tx) = some tx := by
  have f1 : jsonField (encodeTx tx) "from" = some (bytesJson tx.fromAddr) := rfl
  have f2 : jsonField (encodeTx tx) "to" = some (bytesJson tx.toAddr) := rfl
  have f3 : jsonField (encodeTx tx) "amount" = some (optIntJson tx.amount) := rfl
  have f4 : jsonField (encodeTx tx) "nonce" = some (.num tx.nonce) := rfl
  have f5 : jsonField (encodeTx tx) "gasLimit" = some (.num tx.gasLimit) := rfl
  have f6 : jsonField (encodeTx tx) "gasPrice" = some (optIntJson tx.gasPrice) := rfl
  have f7 : jsonField (encodeTx tx) "signature" = some (bytesJson tx.signature) := rfl
  have f8 : jsonField (encodeTx tx) "hash" = some (bytesJson tx.hash) := rfl
  simp only [decodeTx, f1, f2, f3, f4, f5, f6, f7, f8,
    jsonBytes_roundtrip tx.fromAddr h1, jsonBytes_roundtrip tx.toAddr h2,
    jsonOptInt_roundtrip, jsonNat_natVal,
    jsonBytes_roundtrip tx.signature h3, jsonBytes_roundtrip tx.hash h4,
    Option.bind_eq_bind, Option.some_bind, Option.pure_def]

/-- Decoding inverts encoding on transaction lists with byte-valued
byte fields. -/
theorem mapM_encodeTx_decodeTx : ∀ (txs : List Tx),
    (∀ tx ∈ txs, IsBytes tx.fromAddr ∧ IsBytes tx.toAddr ∧ IsBytes tx.signature ∧ IsBytes tx.hash) →
    (txs.map encodeTx).mapM decodeTx = some txs := by
  intro txs
  induction txs with
  | nil => intro _; rfl
  | cons t rest ih =>
    intro h
    rcases h t (List.mem_cons_self t rest) with ⟨h1, h2, h3, h4⟩
    have hrest := ih (fun y hy => h y (List.mem_cons_of_mem t hy))
    simp only [List.map_cons, List.mapM_cons, decodeTx_roundtrip t h1 h2 h3 h4, hrest,
      Option.bind_eq_bind, Option.some_bind, Option.pure_def]

/-- C7: decode(encode(b)) = b for every block whose header `bits` is
non-nil (byte fields hold bytes, as Go's types guarantee); `bits` is
transported as a decimal string.  A nil `bits` breaks the round trip:
it encodes as the string "0" and decodes as a non-nil zero. -/
theorem c7_roundtrip (b : Block) (hb : BlockBytes b) (hbits : b.header.bits ≠ none) :
    decodeBlock (encodeBlock b) = some b := by
  cases hbv : b.header.bits with
  | none => exact absurd hbv hbits
  | some v =>
    rcases hb with ⟨hp, hs, hm, hr, htxs⟩
    have f1 : jsonField (encodeBlock b) "header" = some (encodeHeader b.header) := rfl
    have f2 : jsonField (encodeBlock b) "transactions" =
        some (.arr (b.transactions.map encodeTx)) := rfl
    have f3 : jsonField (encodeBlock b) "merkleRoot" = some (bytesJson b.merkleRoot) := rfl
    have f4 : jsonField (encodeBlock b) "time" = some (.str (intDecimalStr b.time)) := rfl
    have f5 : jsonField (encodeBlock b) "receipts" = some (bytesJson b.receipts) := rfl
    simp only [decodeBlock, f1, decodeHeader_roundtrip b.header v hbv hp hs, f2,
      mapM_encodeTx_decodeTx b.transactions htxs, f3, jsonBytes_roundtrip b.merkleRoot hm,
      f4, jsonTime_roundtrip, f5, jsonBytes_roundtrip b.receipts hr,
      Option.bind_eq_bind, Option.some_bind, Option.pure_def]

/-- C7 counterexample: a block with nil `bits` does not round-trip — it
comes back with `bits` = 0 instead of nil. -/
theorem c7_counterexample :
    nilBitsBlk.header.bits = none ∧
    decodeBlock (encodeBlock nilBitsBlk) = some nilBitsRound ∧
    nilBitsRound.header.bits = some 0 ∧
    decodeBlock (encodeBlock nilBitsBlk) ≠ some nilBitsBlk := by
  decide

/-- Witness for C7 at a block exercising every field of the codec. -/
theorem c7_roundtrip_witness :
    BlockBytes sampleBlk ∧ sampleBlk.header.bits ≠ none ∧
    decodeBlock (encodeBlock sampleBlk) = some sampleBlk := by
  have h1 : BlockBytes sampleBlk := by unfold BlockBytes IsBytes; decide
  have h2 : sampleBlk.header.bits ≠ none := by decide
  exact ⟨h1, h2, c7_roundtrip sampleBlk h1 h2⟩

end Poai
